import Mathlib

/-!
Shallow embedding of the deployment-policy simulator (src/simulation.py).

Python floats are modelled as exact rationals, the process-wide random
generator as an injected stream of draws consumed in program order, dates
as day numbers with weekday = date mod 7 (day 0 is a Monday, matching the
datetime.weekday convention of Monday = 0 and Friday = 4), and Python
exceptions (random.choice on an empty list, random.randint on an empty
range, next() on an exhausted iterator) as Option failure.
-/

namespace Sim

/-- Status of a task, mirroring the TaskStatus enum. -/
inductive TaskStatus
  | IN_PROGRESS
  | READY_TO_DEPLOY
  | DEPLOYED
  | FAILED
deriving DecidableEq, Repr, Fintype

/-- Mirror of the Task dataclass. Dates are day numbers. -/
structure Task where
  id : Nat
  created_date : Nat
  complexity : Int
  status : TaskStatus
  deploy_date : Option Nat := none
  recovery_hours : Rat := 0
  dependencies : List String := []
deriving DecidableEq, Repr

/-- One entry of the other_teams list in the parameter dictionary. -/
structure OtherTeam where
  name : String
  task_completion_rate : Rat
  allows_friday_deploys : Bool
deriving DecidableEq, Repr

/-- Mirror of the parameter dictionary (SIMULATION_DEFAULTS keys). -/
structure SimulationParameters where
  team_size : Nat
  avg_hourly_rate : Rat
  new_tasks_per_day : Nat
  task_complexity_range : Int × Int
  hourly_revenue : Rat
  hourly_downtime_cost : Rat
  base_deploy_failure_rate : Rat
  weekend_recovery_multiplier : Rat
  normal_recovery_hours : Rat
  context_switch_cost_hours : Rat
  dependency_probability : Rat
  other_teams : List OtherTeam
deriving DecidableEq, Repr

/-- Mirror of the metrics dictionary. -/
structure Metrics where
  failed_deploys : Nat
  successful_deploys : Nat
  delayed_tasks : Nat
  total_recovery_hours : Rat
deriving DecidableEq, Repr

/-- One draw from the injected random source: the r field serves
random.random(), the n field serves random.randint and random.choice. -/
structure Draw where
  r : Rat
  n : Nat

/-- Full mutable state of a DeploymentSimulation instance, together with
the injected random stream g and the index idx of the next draw. -/
structure SimState where
  allow_friday_deploys : Bool
  params : SimulationParameters
  failure_cost_multiplier : Rat
  current_date : Nat
  tasks : List Task
  task_counter : Nat
  total_cost : Rat
  daily_costs : List Rat
  metrics : Metrics
  g : Nat → Draw
  idx : Nat

/-- Mirror of the dictionary returned by run_simulation. -/
structure SimulationResult where
  total_cost : Rat
  daily_costs : List Rat
  metrics : Metrics
  allow_friday_deploys : Bool
deriving DecidableEq, Repr

/-- Mirror of DeploymentSimulation.__init__. The start_date argument
models the ambient wall-clock day read via datetime.now() at
construction time. -/
def init (allow_friday_deploys : Bool) (params : SimulationParameters)
    (failure_cost_multiplier : Rat) (g : Nat → Draw) (start_date : Nat) : SimState :=
  { allow_friday_deploys := allow_friday_deploys
    params := params
    failure_cost_multiplier := failure_cost_multiplier
    current_date := start_date
    tasks := []
    task_counter := 0
    total_cost := 0
    daily_costs := []
    metrics := { failed_deploys := 0, successful_deploys := 0,
                 delayed_tasks := 0, total_recovery_hours := 0 }
    g := g
    idx := 0 }

/-- Consume one draw from the stream. -/
def nextDraw (s : SimState) : Draw × SimState :=
  (s.g s.idx, { s with idx := s.idx + 1 })

/-- Mirror of random.random(): one draw, returning its r field. -/
def randRandom (s : SimState) : Rat × SimState :=
  let p := nextDraw s
  (p.1.r, p.2)

/-- Mirror of random.randint(lo, hi): inclusive range, raising
(returning none) when hi is less than lo. -/
def randRandint (lo hi : Int) (s : SimState) : Option (Int × SimState) :=
  if hi < lo then none
  else
    let p := nextDraw s
    some (lo + Int.ofNat (p.1.n % (hi + 1 - lo).toNat), p.2)

/-- Mirror of random.choice on the other_teams list: raises (returns
none) on an empty list. -/
def randChoice (l : List OtherTeam) (s : SimState) : Option (OtherTeam × SimState) :=
  match l with
  | [] => none
  | x :: xs =>
    let p := nextDraw s
    some ((x :: xs).getD (p.1.n % (xs.length + 1)) x, p.2)

/-- Day of week of a day number; Monday is 0, Friday is 4. -/
def weekday (date : Nat) : Nat := date % 7

/-- Mirror of should_deploy_today. -/
def should_deploy_today (s : SimState) : Bool :=
  if weekday s.current_date = 4 then s.allow_friday_deploys else true

/-- Mirror of calculate_deploy_risk. -/
def calculate_deploy_risk (s : SimState) : Rat :=
  s.params.base_deploy_failure_rate

/-- Mirror of calculate_recovery_time. -/
def calculate_recovery_time (s : SimState) : Rat :=
  let base_time := s.params.normal_recovery_hours
  if weekday s.current_date = 4 ∨ weekday s.current_date = 5 ∨ weekday s.current_date = 6 then
    base_time * s.params.weekend_recovery_multiplier
  else
    base_time

/-- Body of the loop in generate_daily_tasks: create one task (counter
increment, complexity draw, dependency draw, optional team choice,
append). -/
def generateTask (s : SimState) : Option SimState :=
  match randRandint s.params.task_complexity_range.1 s.params.task_complexity_range.2
      { s with task_counter := s.task_counter + 1 } with
  | none => none
  | some (complexity, s1) =>
    let p := randRandom s1
    if p.1 < p.2.params.dependency_probability then
      match randChoice p.2.params.other_teams p.2 with
      | none => none
      | some (team, s3) =>
        some { s3 with tasks := s3.tasks ++
          [{ id := s3.task_counter, created_date := s3.current_date,
             complexity := complexity, status := TaskStatus.IN_PROGRESS,
             dependencies := [team.name] }] }
    else
      some { p.2 with tasks := p.2.tasks ++
        [{ id := p.2.task_counter, created_date := p.2.current_date,
           complexity := complexity, status := TaskStatus.IN_PROGRESS,
           dependencies := [] }] }

/-- Iterate generateTask n times. -/
def genLoop : Nat → SimState → Option SimState
  | 0, s => some s
  | n + 1, s => (generateTask s).bind (genLoop n)

/-- Mirror of generate_daily_tasks. -/
def generate_daily_tasks (s : SimState) : Option SimState :=
  genLoop s.params.new_tasks_per_day s

/-- Mirror of the dependency for-loop in progress_tasks, including the
CPython semantics of removing from the list being iterated: the loop
keeps an index i into the current list and list.remove deletes the first
occurrence, shifting later elements left. The next() team lookup raises
(returns none) when the dependency names no configured team. The fuel
argument makes the recursion structural; it is called with the initial
list length, and since the index rises by one per step while the list
never grows, the guard i < length fails no later than the fuel runs
out, so the fuel-exhausted branch returns the same value the guard
branch would. -/
def progressDeps : Nat → SimState → List String → Nat → Option (List String × SimState)
  | 0, s, deps, _ => some (deps, s)
  | fuel + 1, s, deps, i =>
    if i < deps.length then
      match s.params.other_teams.find? (fun t => t.name = deps.getD i "") with
      | none => none
      | some team =>
        if (randRandom s).1 < team.task_completion_rate then
          progressDeps fuel (randRandom s).2 (deps.erase (deps.getD i "")) (i + 1)
        else
          progressDeps fuel (randRandom s).2 deps (i + 1)
    else
      some (deps, s)

/-- Body of the task loop in progress_tasks for one task: resolve
dependencies, then draw readiness at probability 0.3 when none remain. -/
def progressTask (s : SimState) (t : Task) : Option (Task × SimState) :=
  if t.status = TaskStatus.IN_PROGRESS then
    match progressDeps t.dependencies.length s t.dependencies 0 with
    | none => none
    | some q =>
      if q.1.isEmpty then
        if (randRandom q.2).1 < (3 : Rat) / 10 then
          some ({ t with dependencies := q.1, status := TaskStatus.READY_TO_DEPLOY },
            (randRandom q.2).2)
        else
          some ({ t with dependencies := q.1 }, (randRandom q.2).2)
      else
        some ({ t with dependencies := q.1 }, q.2)
  else
    some (t, s)

/-- Thread progressTask over the task list in order. -/
def progressLoop (s : SimState) : List Task → Option (List Task × SimState)
  | [] => some ([], s)
  | t :: ts =>
    match progressTask s t with
    | none => none
    | some q =>
      match progressLoop q.2 ts with
      | none => none
      | some q2 => some (q.1 :: q2.1, q2.2)

/-- Mirror of progress_tasks. -/
def progress_tasks (s : SimState) : Option SimState :=
  (progressLoop s s.tasks).map (fun p => { p.2 with tasks := p.1 })

/-- Body of the deployment loop in attempt_deployments for one task:
when the task is ready, draw against the failure rate; on failure mark
FAILED, set recovery hours, count the failure, and accrue the
multiplied recovery and downtime costs; on success mark DEPLOYED with
the deploy date and count the success. Returns the updated task, the
cost contributed to the daily cost, and the updated state. -/
def attemptTask (s : SimState) (t : Task) : Task × Rat × SimState :=
  if t.status = TaskStatus.READY_TO_DEPLOY then
    let failure_chance := calculate_deploy_risk s
    let p := randRandom s
    if p.1 < failure_chance then
      let recovery_hours := calculate_recovery_time p.2
      let recovery_cost := recovery_hours * (p.2.params.team_size : Rat) *
        p.2.params.avg_hourly_rate * p.2.failure_cost_multiplier
      let downtime_cost := recovery_hours * p.2.params.hourly_downtime_cost *
        p.2.failure_cost_multiplier
      ({ t with status := TaskStatus.FAILED, recovery_hours := recovery_hours },
       recovery_cost + downtime_cost,
       { p.2 with
         total_cost := p.2.total_cost + (recovery_cost + downtime_cost)
         metrics := { p.2.metrics with
           failed_deploys := p.2.metrics.failed_deploys + 1
           total_recovery_hours := p.2.metrics.total_recovery_hours + recovery_hours } })
    else
      ({ t with status := TaskStatus.DEPLOYED, deploy_date := some p.2.current_date },
       0,
       { p.2 with metrics := { p.2.metrics with
           successful_deploys := p.2.metrics.successful_deploys + 1 } })
  else
    (t, 0, s)

/-- Thread attemptTask over the task list, accumulating the daily cost. -/
def attemptLoop (s : SimState) : List Task → List Task × Rat × SimState
  | [] => ([], 0, s)
  | t :: ts =>
    let q := attemptTask s t
    let q2 := attemptLoop q.2.2 ts
    (q.1 :: q2.1, q.2.1 + q2.2.1, q2.2.2)

/-- Mirror of attempt_deployments: gated by should_deploy_today, then
every READY_TO_DEPLOY task is attempted in list order. -/
def attempt_deployments (s : SimState) : Rat × SimState :=
  if should_deploy_today s = false then
    (0, s)
  else
    let q := attemptLoop s s.tasks
    (q.2.1, { q.2.2 with tasks := q.1 })

/-- Mirror of calculate_daily_delay_cost. -/
def calculate_daily_delay_cost (s : SimState) : Rat × SimState :=
  let ready_tasks := s.tasks.filter (fun t => t.status = TaskStatus.READY_TO_DEPLOY)
  if ready_tasks.isEmpty = false ∧ should_deploy_today s = false then
    let delay_cost := (ready_tasks.length : Rat) * s.params.hourly_revenue * 24
    (delay_cost,
     { s with
       total_cost := s.total_cost + delay_cost
       metrics := { s.metrics with
         delayed_tasks := s.metrics.delayed_tasks + ready_tasks.length } })
  else
    (0, s)

/-- Mirror of simulate_day: generate, progress, attempt, delay cost,
append the daily cost, advance the clock. -/
def simulate_day (s : SimState) : Option SimState :=
  match generate_daily_tasks s with
  | none => none
  | some s1 =>
    match progress_tasks s1 with
    | none => none
    | some s2 =>
      some { (calculate_daily_delay_cost (attempt_deployments s2).2).2 with
        daily_costs :=
          (calculate_daily_delay_cost (attempt_deployments s2).2).2.daily_costs ++
            [(attempt_deployments s2).1 +
              (calculate_daily_delay_cost (attempt_deployments s2).2).1]
        current_date :=
          (calculate_daily_delay_cost (attempt_deployments s2).2).2.current_date + 1 }

/-- Run n day-steps from a state. -/
def runStateN (s : SimState) : Nat → Option SimState
  | 0 => some s
  | n + 1 => (simulate_day s).bind (fun s1 => runStateN s1 n)

/-- Projection of the final state into the result dictionary. -/
def resultOf (s : SimState) : SimulationResult :=
  { total_cost := s.total_cost
    daily_costs := s.daily_costs
    metrics := s.metrics
    allow_friday_deploys := s.allow_friday_deploys }

/-- Mirror of run_simulation: range(days) is empty for days at most 0,
so days.toNat day-steps are executed. -/
def run_simulation (s : SimState) (days : Int) : Option SimulationResult :=
  (runStateN s days.toNat).map resultOf

/-- Mirror of SIMULATION_DEFAULTS with floats as exact rationals. -/
def SIMULATION_DEFAULTS : SimulationParameters :=
  { team_size := 5
    avg_hourly_rate := 75
    new_tasks_per_day := 3
    task_complexity_range := (1, 5)
    hourly_revenue := 1000
    hourly_downtime_cost := 2000
    base_deploy_failure_rate := 1 / 20
    weekend_recovery_multiplier := 3
    normal_recovery_hours := 2
    context_switch_cost_hours := 1
    dependency_probability := 3 / 10
    other_teams :=
      [ { name := "Backend Team", task_completion_rate := 1 / 5,
          allows_friday_deploys := false },
        { name := "Security Team", task_completion_rate := 1 / 10,
          allows_friday_deploys := false } ] }

/-! Specification-side definitions used by the theorems below. -/

/-- Number of READY_TO_DEPLOY tasks in a state, as computed by the list
comprehension in calculate_daily_delay_cost. -/
def readyCount (s : SimState) : Nat :=
  (s.tasks.filter (fun t => t.status = TaskStatus.READY_TO_DEPLOY)).length

/-- Recovery time as a function of the parameters and the day number;
calculate_recovery_time of a state equals this applied to its fields. -/
def recoveryTimeAt (pr : SimulationParameters) (date : Nat) : Rat :=
  if weekday date = 4 ∨ weekday date = 5 ∨ weekday date = 6 then
    pr.normal_recovery_hours * pr.weekend_recovery_multiplier
  else
    pr.normal_recovery_hours

/-- Single allowed status move: stay put, or take one edge of
IN_PROGRESS to READY_TO_DEPLOY to one of DEPLOYED or FAILED. -/
def stepOk (a b : TaskStatus) : Prop :=
  a = b ∨ (a = TaskStatus.IN_PROGRESS ∧ b = TaskStatus.READY_TO_DEPLOY) ∨
  (a = TaskStatus.READY_TO_DEPLOY ∧ (b = TaskStatus.DEPLOYED ∨ b = TaskStatus.FAILED))

instance (a b : TaskStatus) : Decidable (stepOk a b) := by
  unfold stepOk; infer_instance

/-- Reflexive-transitive closure of the allowed status edges: the
forward order of the task lifecycle. -/
def statusLE (a b : TaskStatus) : Prop :=
  a = b ∨ a = TaskStatus.IN_PROGRESS ∨
  (a = TaskStatus.READY_TO_DEPLOY ∧ (b = TaskStatus.DEPLOYED ∨ b = TaskStatus.FAILED))

instance (a b : TaskStatus) : Decidable (statusLE a b) := by
  unfold statusLE; infer_instance

/-- Placeholder task used only as a default for positional list access. -/
def dummyTask : Task :=
  { id := 0, created_date := 0, complexity := 0, status := TaskStatus.IN_PROGRESS }

/-- The tasks present before an operation are still present at the same
positions, with the same id, and each status has made at most one
allowed forward move. -/
def StepForward (old new : List Task) : Prop :=
  old.length ≤ new.length ∧
  ∀ i < old.length,
    (new.getD i dummyTask).id = (old.getD i dummyTask).id ∧
    stepOk (old.getD i dummyTask).status (new.getD i dummyTask).status

instance (old new : List Task) : Decidable (StepForward old new) := by
  unfold StepForward; infer_instance

/-- As StepForward, but statuses move along the forward order (possibly
several edges), as observed across a whole day-step. -/
def ForwardLE (old new : List Task) : Prop :=
  old.length ≤ new.length ∧
  ∀ i < old.length,
    (new.getD i dummyTask).id = (old.getD i dummyTask).id ∧
    statusLE (old.getD i dummyTask).status (new.getD i dummyTask).status

instance (old new : List Task) : Decidable (ForwardLE old new) := by
  unfold ForwardLE; infer_instance

/-- What progress_tasks may do to one task: everything but the
dependency list and the status is untouched, dependencies only shrink,
and the status either stays or takes the IN_PROGRESS to READY_TO_DEPLOY
edge. -/
def ProgressRel (t t1 : Task) : Prop :=
  t1.id = t.id ∧ t1.created_date = t.created_date ∧ t1.complexity = t.complexity ∧
  t1.deploy_date = t.deploy_date ∧ t1.recovery_hours = t.recovery_hours ∧
  t1.dependencies.length ≤ t.dependencies.length ∧
  (t1.status = t.status ∨
    (t.status = TaskStatus.IN_PROGRESS ∧ t1.status = TaskStatus.READY_TO_DEPLOY))

/-- What attempt_deployments may do to one task, given the parameters
and the current day: leave it alone, or deploy a ready task stamping
the deploy date, or fail a ready task stamping the recovery hours. -/
def AttemptRel (pr : SimulationParameters) (date : Nat) (t t1 : Task) : Prop :=
  t1.id = t.id ∧ t1.created_date = t.created_date ∧ t1.complexity = t.complexity ∧
  t1.dependencies = t.dependencies ∧
  (t1 = t ∨
   (t.status = TaskStatus.READY_TO_DEPLOY ∧ t1.status = TaskStatus.DEPLOYED ∧
     t1.deploy_date = some date ∧ t1.recovery_hours = t.recovery_hours) ∨
   (t.status = TaskStatus.READY_TO_DEPLOY ∧ t1.status = TaskStatus.FAILED ∧
     t1.deploy_date = t.deploy_date ∧ t1.recovery_hours = recoveryTimeAt pr date))

/-- Invariant of C8: the deploy date is set exactly on DEPLOYED tasks
and the recovery hours are positive exactly on FAILED tasks, zero
otherwise. -/
def TasksInv (l : List Task) : Prop :=
  ∀ t ∈ l,
    ((t.deploy_date ≠ none) ↔ t.status = TaskStatus.DEPLOYED) ∧
    (0 < t.recovery_hours ↔ t.status = TaskStatus.FAILED) ∧
    (t.status ≠ TaskStatus.FAILED → t.recovery_hours = 0)

instance (l : List Task) : Decidable (TasksInv l) := by
  unfold TasksInv; infer_instance

/-- Invariant of C10: every task carries at most one dependency. -/
def DepsAtMostOne (l : List Task) : Prop :=
  ∀ t ∈ l, t.dependencies.length ≤ 1

instance (l : List Task) : Decidable (DepsAtMostOne l) := by
  unfold DepsAtMostOne; infer_instance

/-- Override the failure cost multiplier and the cost ledger of a state,
leaving every other field in place. Used to relate runs that differ
only in the multiplier. -/
def withCost (s : SimState) (m c : Rat) (l : List Rat) : SimState :=
  { s with failure_cost_multiplier := m, total_cost := c, daily_costs := l }

/-- simulate_day instrumented to also return the two components of the
daily cost: the deployment-failure cost and the delay cost, computed by
the very same sub-step functions. -/
def simulate_day_fd (s : SimState) : Option (SimState × Rat × Rat) :=
  match generate_daily_tasks s with
  | none => none
  | some s1 =>
    match progress_tasks s1 with
    | none => none
    | some s2 =>
      some ({ (calculate_daily_delay_cost (attempt_deployments s2).2).2 with
        daily_costs :=
          (calculate_daily_delay_cost (attempt_deployments s2).2).2.daily_costs ++
            [(attempt_deployments s2).1 +
              (calculate_daily_delay_cost (attempt_deployments s2).2).1]
        current_date :=
          (calculate_daily_delay_cost (attempt_deployments s2).2).2.current_date + 1 },
        (attempt_deployments s2).1,
        (calculate_daily_delay_cost (attempt_deployments s2).2).1)

/-- Run n instrumented day-steps, collecting the per-day pair of
deployment-failure cost and delay cost. -/
def runFD (s : SimState) : Nat → Option (SimState × List (Rat × Rat))
  | 0 => some (s, [])
  | n + 1 =>
    (simulate_day_fd s).bind (fun p =>
      (runFD p.1 n).map (fun q => (q.1, p.2 :: q.2)))

/-! Concrete draw streams and states used by witnesses and
counterexamples. -/

/-- Stream whose every draw is one half. -/
def gHalf : Nat → Draw := fun _ => { r := 1 / 2, n := 0 }

/-- Stream whose every draw is zero. -/
def gZero : Nat → Draw := fun _ => { r := 0, n := 0 }

/-- Stream for a one-day run with the default parameters: the three
generated tasks get no dependency (draws 1, 3, 5 at one half), all
three pass the readiness draw (draws 6 to 8 at one tenth), and all
three deployment attempts succeed if attempted (draws from 9 on at one
half). -/
def g3 : Nat → Draw := fun i =>
  if 6 ≤ i ∧ i ≤ 8 then { r := 1 / 10, n := 0 } else { r := 1 / 2, n := 0 }

/-- A ready-to-deploy task used as a concrete input. -/
def wReadyTask : Task :=
  { id := 1, created_date := 0, complexity := 1, status := TaskStatus.READY_TO_DEPLOY }

/-- A state on a Monday holding one ready task, zero draws consumed. -/
def wMonState : SimState :=
  { init true SIMULATION_DEFAULTS 1 gZero 0 with tasks := [wReadyTask] }

/-- A state on a Friday under the no-Friday-deploys policy holding one
ready task. -/
def wFriState : SimState :=
  { init false SIMULATION_DEFAULTS 1 gHalf 4 with tasks := [wReadyTask] }

/-! Helper lemmas. -/

theorem calculate_recovery_time_eq (s : SimState) :
    calculate_recovery_time s = recoveryTimeAt s.params s.current_date := rfl

theorem randRandom_eq (s : SimState) :
    randRandom s = ((s.g s.idx).r, { s with idx := s.idx + 1 }) := rfl

/-! Claim theorems. -/

/-- C7: a task that fails its deployment attempt gets recovery hours
equal to normal_recovery_hours times weekend_recovery_multiplier when
the current day is a Friday, Saturday or Sunday, and to
normal_recovery_hours on every other weekday. -/
theorem failed_task_recovery_hours (s : SimState) (t : Task)
    (hready : t.status = TaskStatus.READY_TO_DEPLOY)
    (hfail : (s.g s.idx).r < s.params.base_deploy_failure_rate) :
    (attemptTask s t).1.status = TaskStatus.FAILED ∧
    (attemptTask s t).1.recovery_hours =
      (if weekday s.current_date = 4 ∨ weekday s.current_date = 5 ∨ weekday s.current_date = 6
       then s.params.normal_recovery_hours * s.params.weekend_recovery_multiplier
       else s.params.normal_recovery_hours) := by
  unfold attemptTask calculate_deploy_risk randRandom nextDraw calculate_recovery_time
  simp [hready, hfail]

unseal Rat.mul Rat.add Rat.sub Rat.inv in
/-- Witness for C7 at a concrete failing attempt on a Monday. -/
theorem failed_task_recovery_hours_witness :
    (attemptTask wMonState wReadyTask).1.status = TaskStatus.FAILED ∧
    (attemptTask wMonState wReadyTask).1.recovery_hours =
      (if weekday wMonState.current_date = 4 ∨ weekday wMonState.current_date = 5 ∨
          weekday wMonState.current_date = 6
       then wMonState.params.normal_recovery_hours * wMonState.params.weekend_recovery_multiplier
       else wMonState.params.normal_recovery_hours) :=
  failed_task_recovery_hours wMonState wReadyTask (by decide) (by decide)

/-- C5: on a day where deploys are skipped and at least one task is
ready, the delay cost is exactly the ready count times hourly_revenue
times 24, it is added to the running total, and the delayed-task
counter grows by the ready count; when deploys proceed, or no task is
ready, the delay cost is 0 and the state is untouched; and deploys are
skipped exactly when the day is a Friday and the policy forbids Friday
deploys. -/
theorem daily_delay_cost_spec (s : SimState) :
    (should_deploy_today s = false → 0 < readyCount s →
      (calculate_daily_delay_cost s).1 =
        (readyCount s : Rat) * s.params.hourly_revenue * 24 ∧
      (calculate_daily_delay_cost s).2.total_cost =
        s.total_cost + (calculate_daily_delay_cost s).1 ∧
      (calculate_daily_delay_cost s).2.metrics.delayed_tasks =
        s.metrics.delayed_tasks + readyCount s) ∧
    (should_deploy_today s = true →
      (calculate_daily_delay_cost s).1 = 0 ∧ (calculate_daily_delay_cost s).2 = s) ∧
    (should_deploy_today s = false → readyCount s = 0 →
      (calculate_daily_delay_cost s).1 = 0 ∧ (calculate_daily_delay_cost s).2 = s) ∧
    (should_deploy_today s = false ↔
      weekday s.current_date = 4 ∧ s.allow_friday_deploys = false) := by
  refine ⟨?_, ?_, ?_, ?_⟩
  · intro hskip hpos
    unfold calculate_daily_delay_cost
    have hne : (s.tasks.filter (fun t => t.status = TaskStatus.READY_TO_DEPLOY)).isEmpty = false := by
      rcases hft : s.tasks.filter (fun t => t.status = TaskStatus.READY_TO_DEPLOY) with _ | ⟨a, l⟩
      · exfalso
        unfold readyCount at hpos
        rw [hft] at hpos
        simp at hpos
      · rw [hft]
        rfl
    rw [if_pos ⟨hne, hskip⟩]
    unfold readyCount
    exact ⟨rfl, rfl, rfl⟩
  · intro hgo
    unfold calculate_daily_delay_cost
    rw [if_neg]
    · exact ⟨rfl, rfl⟩
    · rintro ⟨-, hskip⟩
      rw [hgo] at hskip
      exact Bool.noConfusion hskip
  · intro hskip hzero
    unfold calculate_daily_delay_cost
    rw [if_neg]
    · exact ⟨rfl, rfl⟩
    · rintro ⟨hne, -⟩
      unfold readyCount at hzero
      rw [List.length_eq_zero] at hzero
      rw [hzero] at hne
      simp at hne
  · unfold should_deploy_today
    constructor
    · intro h
      by_cases hw : weekday s.current_date = 4
      · rw [if_pos hw] at h
        exact ⟨hw, h⟩
      · rw [if_neg hw] at h
        exact Bool.noConfusion h
    · rintro ⟨hw, hf⟩
      rw [if_pos hw]
      exact hf

unseal Rat.mul Rat.add Rat.sub Rat.inv in
/-- Witness for C5 at a concrete skipped Friday with one ready task. -/
theorem daily_delay_cost_spec_witness :
    (calculate_daily_delay_cost wFriState).1 =
      (readyCount wFriState : Rat) * wFriState.params.hourly_revenue * 24 ∧
    (calculate_daily_delay_cost wFriState).2.total_cost =
      wFriState.total_cost + (calculate_daily_delay_cost wFriState).1 ∧
    (calculate_daily_delay_cost wFriState).2.metrics.delayed_tasks =
      wFriState.metrics.delayed_tasks + readyCount wFriState :=
  (daily_delay_cost_spec wFriState).1 (by decide) (by decide)

unseal Rat.mul Rat.add Rat.sub Rat.inv in
/-- C3 counterexample: the constructor reads the ambient wall clock
(datetime.now), so two engines built with identical flag, parameters,
multiplier and random draws, but on a Thursday versus a Friday, return
different results from run(1). -/
theorem run_depends_on_construction_date :
    run_simulation (init false SIMULATION_DEFAULTS 1 g3 3) 1 ≠
    run_simulation (init false SIMULATION_DEFAULTS 1 g3 4) 1 := by
  decide

/-- C3 amended: the engine is deterministic given its random source and
its construction date: equal policy flag, parameters, multiplier, draw
stream, construction day and day count yield equal results. -/
theorem run_deterministic_given_inputs (f1 f2 : Bool) (p1 p2 : SimulationParameters)
    (m1 m2 : Rat) (g1 g2 : Nat → Draw) (d1 d2 : Nat) (days1 days2 : Int)
    (hf : f1 = f2) (hp : p1 = p2) (hm : m1 = m2) (hg : g1 = g2) (hd : d1 = d2)
    (hdays : days1 = days2) :
    run_simulation (init f1 p1 m1 g1 d1) days1 =
    run_simulation (init f2 p2 m2 g2 d2) days2 := by
  subst hf; subst hp; subst hm; subst hg; subst hd; subst hdays; rfl

/-- Witness for the amended C3 at concrete equal inputs. -/
theorem run_deterministic_given_inputs_witness :
    run_simulation (init false SIMULATION_DEFAULTS 1 g3 3) 1 =
    run_simulation (init false SIMULATION_DEFAULTS 1 g3 3) 1 :=
  run_deterministic_given_inputs false false SIMULATION_DEFAULTS SIMULATION_DEFAULTS
    1 1 g3 g3 3 3 1 1 rfl rfl rfl rfl rfl rfl

/-- C4 counterexample: run with days equal to 0 (which satisfies days
at most 0) raises nothing and returns a full result record. -/
theorem run_zero_days_returns_result :
    run_simulation (init false SIMULATION_DEFAULTS 1 gHalf 0) 0 =
      some { total_cost := 0, daily_costs := [],
             metrics := { failed_deploys := 0, successful_deploys := 0,
                          delayed_tasks := 0, total_recovery_hours := 0 },
             allow_friday_deploys := false } := rfl

/-- C4 amended: no validation happens at construction or at run entry.
A day count at most 0 silently yields the result of zero day-steps; a
malformed complexity range, or an empty team set with a dependency draw
that hits, only fail later, inside the first task-generation sub-step
of a day. -/
theorem no_entry_validation :
    (∀ (s : SimState) (days : Int), days ≤ 0 → run_simulation s days = some (resultOf s)) ∧
    (∀ s : SimState, s.params.task_complexity_range.2 < s.params.task_complexity_range.1 →
      0 < s.params.new_tasks_per_day → simulate_day s = none) ∧
    (∀ s : SimState, s.params.other_teams = [] →
      s.params.task_complexity_range.1 ≤ s.params.task_complexity_range.2 →
      0 < s.params.new_tasks_per_day →
      (s.g (s.idx + 1)).r < s.params.dependency_probability →
      simulate_day s = none) := by
  refine ⟨?_, ?_, ?_⟩
  · intro s days hle
    have h0 : days.toNat = 0 := Int.toNat_eq_zero.mpr hle
    unfold run_simulation
    rw [h0]
    rfl
  · intro s hlt hn
    have hgen : generateTask s = none := by
      unfold generateTask randRandint
      rw [if_pos hlt]
    have hall : generate_daily_tasks s = none := by
      unfold generate_daily_tasks
      rcases hk : s.params.new_tasks_per_day with _ | k
      · rw [hk] at hn; exact absurd hn (Nat.lt_irrefl 0)
      · unfold genLoop
        rw [hgen]
        rfl
    unfold simulate_day
    rw [hall]
  · intro s hteams hle hn hr
    have h1 : ¬ (s.params.task_complexity_range.2 < s.params.task_complexity_range.1) :=
      Int.not_lt.mpr hle
    have hgen : generateTask s = none := by
      simp only [generateTask, randRandint, randRandom, nextDraw, randChoice, h1,
        if_false, ite_false]
      simp only [hr, if_true, ite_true, hteams]
    have hall : generate_daily_tasks s = none := by
      unfold generate_daily_tasks
      rcases hk : s.params.new_tasks_per_day with _ | k
      · rw [hk] at hn; exact absurd hn (Nat.lt_irrefl 0)
      · unfold genLoop
        rw [hgen]
        rfl
    unfold simulate_day
    rw [hall]

unseal Rat.mul Rat.add Rat.sub Rat.inv in
/-- Witness for the amended C4 at concrete inputs: a negative day
count, a reversed complexity range, and an empty team set with a
hitting dependency draw. -/
theorem no_entry_validation_witness :
    run_simulation (init false SIMULATION_DEFAULTS 1 gHalf 0) (-3) =
      some (resultOf (init false SIMULATION_DEFAULTS 1 gHalf 0)) ∧
    simulate_day (init false
      { SIMULATION_DEFAULTS with task_complexity_range := (5, 1) } 1 gHalf 0) = none ∧
    simulate_day (init false
      { SIMULATION_DEFAULTS with other_teams := [] } 1 gZero 0) = none :=
  ⟨no_entry_validation.1 (init false SIMULATION_DEFAULTS 1 gHalf 0) (-3) (by decide),
   no_entry_validation.2.1 (init false
     { SIMULATION_DEFAULTS with task_complexity_range := (5, 1) } 1 gHalf 0)
     (by decide) (by decide),
   no_entry_validation.2.2 (init false
     { SIMULATION_DEFAULTS with other_teams := [] } 1 gZero 0)
     (by decide) (by decide) (by decide) (by decide)⟩

/-! Case characterizations of attemptTask and properties of the
deployment loop. -/

theorem attemptTask_not_ready (s : SimState) (t : Task)
    (h : ¬ t.status = TaskStatus.READY_TO_DEPLOY) :
    attemptTask s t = (t, 0, s) := by
  unfold attemptTask
  rw [if_neg h]

theorem attemptTask_fail (s : SimState) (t : Task)
    (h : t.status = TaskStatus.READY_TO_DEPLOY)
    (hf : (s.g s.idx).r < s.params.base_deploy_failure_rate) :
    attemptTask s t =
      ({ t with
         status := TaskStatus.FAILED
         recovery_hours := calculate_recovery_time s },
       calculate_recovery_time s * (s.params.team_size : Rat) * s.params.avg_hourly_rate *
           s.failure_cost_multiplier +
         calculate_recovery_time s * s.params.hourly_downtime_cost * s.failure_cost_multiplier,
       { s with
         idx := s.idx + 1
         total_cost := s.total_cost +
           (calculate_recovery_time s * (s.params.team_size : Rat) * s.params.avg_hourly_rate *
               s.failure_cost_multiplier +
             calculate_recovery_time s * s.params.hourly_downtime_cost *
               s.failure_cost_multiplier)
         metrics := { s.metrics with
           failed_deploys := s.metrics.failed_deploys + 1
           total_recovery_hours :=
             s.metrics.total_recovery_hours + calculate_recovery_time s } }) := by
  unfold attemptTask calculate_deploy_risk randRandom nextDraw
  rw [if_pos h]
  simp only [if_pos hf]
  rfl

theorem attemptTask_deployed (s : SimState) (t : Task)
    (h : t.status = TaskStatus.READY_TO_DEPLOY)
    (hf : ¬ (s.g s.idx).r < s.params.base_deploy_failure_rate) :
    attemptTask s t =
      ({ t with status := TaskStatus.DEPLOYED, deploy_date := some s.current_date },
       0,
       { s with
         idx := s.idx + 1
         metrics := { s.metrics with
           successful_deploys := s.metrics.successful_deploys + 1 } }) := by
  unfold attemptTask calculate_deploy_risk randRandom nextDraw
  rw [if_pos h]
  simp only [if_neg hf]

theorem attemptTask_total_delta (s : SimState) (t : Task) :
    (attemptTask s t).2.2.total_cost = s.total_cost + (attemptTask s t).2.1 := by
  by_cases h : t.status = TaskStatus.READY_TO_DEPLOY
  · by_cases hf : (s.g s.idx).r < s.params.base_deploy_failure_rate
    · rw [attemptTask_fail s t h hf]
    · rw [attemptTask_deployed s t h hf]
      simp
  · rw [attemptTask_not_ready s t h]
    simp

theorem attemptLoop_total_delta (ts : List Task) : ∀ s : SimState,
    (attemptLoop s ts).2.2.total_cost = s.total_cost + (attemptLoop s ts).2.1 := by
  induction ts with
  | nil => intro s; simp [attemptLoop]
  | cons t ts ih =>
    intro s
    unfold attemptLoop
    have h1 := attemptTask_total_delta s t
    have h2 := ih (attemptTask s t).2.2
    simp only []
    rw [h2, h1]
    ring

/-- C6: a failed deployment attempt adds exactly
(recovery_hours × team_size × hourly_rate + recovery_hours ×
hourly_downtime_cost) × failure_cost_multiplier to the daily cost and
the running total, counts one more failed deploy, and grows cumulative
recovery hours by the recovery hours of the task; a successful attempt
adds no cost and counts one more successful deploy; and the daily cost
returned by attempt_deployments is precisely what was added to the
running total. -/
theorem deployment_failure_cost_spec :
    (∀ (s : SimState) (t : Task), t.status = TaskStatus.READY_TO_DEPLOY →
      (((s.g s.idx).r < s.params.base_deploy_failure_rate →
        (attemptTask s t).2.1 =
          (calculate_recovery_time s * (s.params.team_size : Rat) * s.params.avg_hourly_rate +
            calculate_recovery_time s * s.params.hourly_downtime_cost) *
            s.failure_cost_multiplier ∧
        (attemptTask s t).1.status = TaskStatus.FAILED ∧
        (attemptTask s t).1.recovery_hours = calculate_recovery_time s ∧
        (attemptTask s t).2.2.total_cost = s.total_cost + (attemptTask s t).2.1 ∧
        (attemptTask s t).2.2.metrics.failed_deploys = s.metrics.failed_deploys + 1 ∧
        (attemptTask s t).2.2.metrics.total_recovery_hours =
          s.metrics.total_recovery_hours + (attemptTask s t).1.recovery_hours) ∧
      (¬ (s.g s.idx).r < s.params.base_deploy_failure_rate →
        (attemptTask s t).2.1 = 0 ∧
        (attemptTask s t).2.2.total_cost = s.total_cost ∧
        (attemptTask s t).1.status = TaskStatus.DEPLOYED ∧
        (attemptTask s t).2.2.metrics.successful_deploys =
          s.metrics.successful_deploys + 1))) ∧
    (∀ s : SimState,
      (attempt_deployments s).2.total_cost = s.total_cost + (attempt_deployments s).1) := by
  constructor
  · intro s t h
    constructor
    · intro hf
      rw [attemptTask_fail s t h hf]
      refine ⟨by ring, rfl, rfl, rfl, rfl, rfl⟩
    · intro hf
      rw [attemptTask_deployed s t h hf]
      exact ⟨rfl, by simp, rfl, rfl⟩
  · intro s
    unfold attempt_deployments
    by_cases hgate : should_deploy_today s = false
    · rw [if_pos hgate]
      simp
    · rw [if_neg hgate]
      simp only []
      exact attemptLoop_total_delta s.tasks s

unseal Rat.mul Rat.add Rat.sub Rat.inv in
/-- Witness for C6 at a concrete failing attempt. -/
theorem deployment_failure_cost_spec_witness :
    (attemptTask wMonState wReadyTask).2.1 =
      (calculate_recovery_time wMonState * (wMonState.params.team_size : Rat) *
          wMonState.params.avg_hourly_rate +
        calculate_recovery_time wMonState * wMonState.params.hourly_downtime_cost) *
        wMonState.failure_cost_multiplier ∧
    (attemptTask wMonState wReadyTask).1.status = TaskStatus.FAILED ∧
    (attemptTask wMonState wReadyTask).1.recovery_hours = calculate_recovery_time wMonState ∧
    (attemptTask wMonState wReadyTask).2.2.total_cost =
      wMonState.total_cost + (attemptTask wMonState wReadyTask).2.1 ∧
    (attemptTask wMonState wReadyTask).2.2.metrics.failed_deploys =
      wMonState.metrics.failed_deploys + 1 ∧
    (attemptTask wMonState wReadyTask).2.2.metrics.total_recovery_hours =
      wMonState.metrics.total_recovery_hours +
        (attemptTask wMonState wReadyTask).1.recovery_hours :=
  ((deployment_failure_cost_spec.1 wMonState wReadyTask (by decide)).1 (by decide))

/-! Case characterizations of generateTask and the shape of the states
produced by the generation loop. -/

theorem generateTask_none_badrange (s : SimState)
    (hlo : s.params.task_complexity_range.2 < s.params.task_complexity_range.1) :
    generateTask s = none := by
  unfold generateTask randRandint
  rw [if_pos hlo]

theorem generateTask_none_emptyteams (s : SimState)
    (hlo : ¬ s.params.task_complexity_range.2 < s.params.task_complexity_range.1)
    (hdep : (s.g (s.idx + 1)).r < s.params.dependency_probability)
    (hteams : s.params.other_teams = []) :
    generateTask s = none := by
  simp only [generateTask, randRandint, randRandom, nextDraw, randChoice, hlo,
    if_false, ite_false]
  simp only [hdep, if_true, ite_true, hteams]

theorem generateTask_eq_nodep (s : SimState)
    (hlo : ¬ s.params.task_complexity_range.2 < s.params.task_complexity_range.1)
    (hdep : ¬ (s.g (s.idx + 1)).r < s.params.dependency_probability) :
    generateTask s = some { s with
      tasks := s.tasks ++
        [{ id := s.task_counter + 1, created_date := s.current_date,
           complexity := s.params.task_complexity_range.1 +
             Int.ofNat ((s.g s.idx).n %
               (s.params.task_complexity_range.2 + 1 - s.params.task_complexity_range.1).toNat),
           status := TaskStatus.IN_PROGRESS, dependencies := [] }]
      task_counter := s.task_counter + 1
      idx := s.idx + 2 } := by
  simp only [generateTask, randRandint, randRandom, nextDraw, hlo, if_false, ite_false]
  simp only [hdep, if_false, ite_false]

theorem generateTask_eq_dep (s : SimState)
    (hlo : ¬ s.params.task_complexity_range.2 < s.params.task_complexity_range.1)
    (hdep : (s.g (s.idx + 1)).r < s.params.dependency_probability)
    (x : OtherTeam) (xs : List OtherTeam)
    (hteams : s.params.other_teams = x :: xs) :
    generateTask s = some { s with
      tasks := s.tasks ++
        [{ id := s.task_counter + 1, created_date := s.current_date,
           complexity := s.params.task_complexity_range.1 +
             Int.ofNat ((s.g s.idx).n %
               (s.params.task_complexity_range.2 + 1 - s.params.task_complexity_range.1).toNat),
           status := TaskStatus.IN_PROGRESS,
           dependencies := [((x :: xs).getD ((s.g (s.idx + 2)).n % (xs.length + 1)) x).name] }]
      task_counter := s.task_counter + 1
      idx := s.idx + 3 } := by
  simp only [generateTask, randRandint, randRandom, nextDraw, randChoice, hlo,
    if_false, ite_false]
  simp only [hdep, if_true, ite_true, hteams]

theorem generateTask_spec (s s1 : SimState) (h : generateTask s = some s1) :
    ∃ (t_new : Task) (k : Nat),
      s1 = { s with
        tasks := s.tasks ++ [t_new]
        task_counter := s.task_counter + 1
        idx := k } ∧
      t_new.id = s.task_counter + 1 ∧ t_new.created_date = s.current_date ∧
      t_new.status = TaskStatus.IN_PROGRESS ∧ t_new.deploy_date = none ∧
      t_new.recovery_hours = 0 ∧ t_new.dependencies.length ≤ 1 := by
  by_cases hlo : s.params.task_complexity_range.2 < s.params.task_complexity_range.1
  · rw [generateTask_none_badrange s hlo] at h
    cases h
  · by_cases hdep : (s.g (s.idx + 1)).r < s.params.dependency_probability
    · cases hteams : s.params.other_teams with
      | nil =>
        rw [generateTask_none_emptyteams s hlo hdep hteams] at h
        cases h
      | cons x xs =>
        rw [generateTask_eq_dep s hlo hdep x xs hteams] at h
        have h1 := Option.some.inj h
        exact ⟨_, s.idx + 3, h1.symm, rfl, rfl, rfl, rfl, rfl, by simp⟩
    · rw [generateTask_eq_nodep s hlo hdep] at h
      have h1 := Option.some.inj h
      exact ⟨_, s.idx + 2, h1.symm, rfl, rfl, rfl, rfl, rfl, by simp⟩

theorem genLoop_spec : ∀ (n : Nat) (s s1 : SimState), genLoop n s = some s1 →
    (∃ ts_new : List Task, s1.tasks = s.tasks ++ ts_new ∧
      ∀ t ∈ ts_new, t.status = TaskStatus.IN_PROGRESS ∧ t.deploy_date = none ∧
        t.recovery_hours = 0 ∧ t.dependencies.length ≤ 1) ∧
    s1.total_cost = s.total_cost ∧ s1.daily_costs = s.daily_costs ∧
    s1.metrics = s.metrics ∧ s1.current_date = s.current_date ∧
    s1.params = s.params ∧ s1.allow_friday_deploys = s.allow_friday_deploys ∧
    s1.failure_cost_multiplier = s.failure_cost_multiplier ∧ s1.g = s.g := by
  intro n
  induction n with
  | zero =>
    intro s s1 h
    have h1 := Option.some.inj h
    subst h1
    exact ⟨⟨[], by simp, by simp⟩, rfl, rfl, rfl, rfl, rfl, rfl, rfl, rfl⟩
  | succ n ih =>
    intro s s1 h
    unfold genLoop at h
    cases hg : generateTask s with
    | none =>
      rw [hg] at h
      cases h
    | some s2 =>
      rw [hg] at h
      have h2 : genLoop n s2 = some s1 := h
      obtain ⟨t_new, k, hs2, -, -, hst, hdd, hrh, hdl⟩ := generateTask_spec s s2 hg
      obtain ⟨⟨ts_new, hts, hnew⟩, htc, hdc, hm, hcd, hp, haf, hfm, hgg⟩ := ih s2 s1 h2
      subst hs2
      refine ⟨⟨t_new :: ts_new, ?_, ?_⟩, htc, hdc, hm, hcd, hp, haf, hfm, hgg⟩
      · rw [hts]
        simp
      · intro t ht
        rcases List.mem_cons.mp ht with h | h
        · subst h
          exact ⟨hst, hdd, hrh, hdl⟩
        · exact hnew t h

/-! Shape of the states produced by the progression loop. -/

theorem progressDeps_spec : ∀ (fuel : Nat) (s : SimState) (deps : List String) (i : Nat)
    (d1 : List String) (s1 : SimState), progressDeps fuel s deps i = some (d1, s1) →
    d1.length ≤ deps.length ∧ ∃ k, s1 = { s with idx := k } := by
  intro fuel
  induction fuel with
  | zero =>
    intro s deps i d1 s1 h
    have h1 := Option.some.inj h
    have hd : deps = d1 := congrArg Prod.fst h1
    have hs : s = s1 := congrArg Prod.snd h1
    subst hd
    subst hs
    exact ⟨Nat.le_refl _, s.idx, rfl⟩
  | succ fuel ih =>
    intro s deps i d1 s1 h
    unfold progressDeps at h
    split at h
    · split at h
      · cases h
      · split at h
        · obtain ⟨hlen, k, hk⟩ :=
            ih (randRandom s).2 (deps.erase (deps.getD i "")) (i + 1) d1 s1 h
          exact ⟨Nat.le_trans hlen (List.erase_sublist _ _).length_le, k, hk⟩
        · obtain ⟨hlen, k, hk⟩ := ih (randRandom s).2 deps (i + 1) d1 s1 h
          exact ⟨hlen, k, hk⟩
    · have h1 := Option.some.inj h
      have hd : deps = d1 := congrArg Prod.fst h1
      have hs : s = s1 := congrArg Prod.snd h1
      subst hd
      subst hs
      exact ⟨Nat.le_refl _, s.idx, rfl⟩

theorem progressTask_spec (s : SimState) (t : Task) (t1 : Task) (s1 : SimState)
    (h : progressTask s t = some (t1, s1)) :
    ProgressRel t t1 ∧ ∃ k, s1 = { s with idx := k } := by
  unfold progressTask at h
  split at h
  case isTrue hst =>
    split at h
    case h_1 => cases h
    case h_2 q hpd =>
      obtain ⟨hlen, k, hk⟩ := progressDeps_spec _ _ _ _ _ _ hpd
      split at h
      case isTrue hemp =>
        split at h
        case isTrue hrdy =>
          have h1 := Option.some.inj h
          have ht1 : ({ t with dependencies := q.1, status := TaskStatus.READY_TO_DEPLOY } : Task) = t1 :=
            congrArg Prod.fst h1
          have hs1 : (randRandom q.2).2 = s1 := congrArg Prod.snd h1
          subst ht1
          refine ⟨⟨rfl, rfl, rfl, rfl, rfl, hlen, Or.inr ⟨hst, rfl⟩⟩, k + 1, ?_⟩
          rw [← hs1, hk]
          rfl
        case isFalse hrdy =>
          have h1 := Option.some.inj h
          have ht1 : ({ t with dependencies := q.1 } : Task) = t1 := congrArg Prod.fst h1
          have hs1 : (randRandom q.2).2 = s1 := congrArg Prod.snd h1
          subst ht1
          refine ⟨⟨rfl, rfl, rfl, rfl, rfl, hlen, Or.inl rfl⟩, k + 1, ?_⟩
          rw [← hs1, hk]
          rfl
      case isFalse hemp =>
        have h1 := Option.some.inj h
        have ht1 : ({ t with dependencies := q.1 } : Task) = t1 := congrArg Prod.fst h1
        have hs1 : q.2 = s1 := congrArg Prod.snd h1
        subst ht1
        exact ⟨⟨rfl, rfl, rfl, rfl, rfl, hlen, Or.inl rfl⟩, k, by rw [← hs1, hk]⟩
  case isFalse hst =>
    have h1 := Option.some.inj h
    have ht1 : t = t1 := congrArg Prod.fst h1
    have hs1 : s = s1 := congrArg Prod.snd h1
    subst ht1
    subst hs1
    exact ⟨⟨rfl, rfl, rfl, rfl, rfl, Nat.le_refl _, Or.inl rfl⟩, s.idx, rfl⟩

theorem progressLoop_spec : ∀ (ts : List Task) (s : SimState) (ts1 : List Task) (s2 : SimState),
    progressLoop s ts = some (ts1, s2) →
    ts1.length = ts.length ∧
    (∀ i < ts.length, ProgressRel (ts.getD i dummyTask) (ts1.getD i dummyTask)) ∧
    ∃ k, s2 = { s with idx := k } := by
  intro ts
  induction ts with
  | nil =>
    intro s ts1 s2 h
    unfold progressLoop at h
    have h1 := Option.some.inj h
    have hts : ([] : List Task) = ts1 := congrArg Prod.fst h1
    have hs : s = s2 := congrArg Prod.snd h1
    subst hts
    subst hs
    refine ⟨rfl, ?_, s.idx, rfl⟩
    intro i hi
    simp at hi
  | cons t ts ih =>
    intro s ts1 s2 h
    unfold progressLoop at h
    split at h
    case h_1 => cases h
    case h_2 q hpt =>
      split at h
      case h_1 => cases h
      case h_2 q2 hpl =>
        have h1 := Option.some.inj h
        have hts : q.1 :: q2.1 = ts1 := congrArg Prod.fst h1
        have hs : q2.2 = s2 := congrArg Prod.snd h1
        obtain ⟨hrel, k, hk⟩ := progressTask_spec s t q.1 q.2 (by rw [hpt])
        obtain ⟨hlen, hall, k2, hk2⟩ := ih q.2 q2.1 q2.2 (by rw [hpl])
        subst hts
        refine ⟨by simp [hlen], ?_, k2, ?_⟩
        · intro i hi
          cases i with
          | zero => simpa using hrel
          | succ j =>
            have hj : j < ts.length := by simpa using hi
            simpa using hall j hj
        · rw [← hs, hk2, hk]

theorem progress_tasks_spec (s s1 : SimState) (h : progress_tasks s = some s1) :
    s1.tasks.length = s.tasks.length ∧
    (∀ i < s.tasks.length, ProgressRel (s.tasks.getD i dummyTask) (s1.tasks.getD i dummyTask)) ∧
    s1.total_cost = s.total_cost ∧ s1.daily_costs = s.daily_costs ∧
    s1.metrics = s.metrics ∧ s1.current_date = s.current_date ∧
    s1.params = s.params ∧ s1.allow_friday_deploys = s.allow_friday_deploys ∧
    s1.failure_cost_multiplier = s.failure_cost_multiplier ∧ s1.g = s.g := by
  unfold progress_tasks at h
  cases hpl : progressLoop s s.tasks with
  | none =>
    rw [hpl] at h
    cases h
  | some q =>
    obtain ⟨ql, qs⟩ := q
    rw [hpl] at h
    simp only [Option.map_some'] at h
    have h1 := Option.some.inj h
    obtain ⟨hlen, hall, k, hk⟩ := progressLoop_spec s.tasks s ql qs (by rw [hpl])
    subst h1
    subst hk
    exact ⟨hlen, hall, rfl, rfl, rfl, rfl, rfl, rfl, rfl, rfl⟩

/-! Shape of the states produced by the deployment loop and the delay
cost step, and composition over a whole day. -/

theorem attemptTask_spec (s : SimState) (t : Task) :
    AttemptRel s.params s.current_date t (attemptTask s t).1 ∧
    (attemptTask s t).2.2.params = s.params ∧
    (attemptTask s t).2.2.current_date = s.current_date ∧
    (attemptTask s t).2.2.tasks = s.tasks ∧
    (attemptTask s t).2.2.daily_costs = s.daily_costs ∧
    (attemptTask s t).2.2.allow_friday_deploys = s.allow_friday_deploys ∧
    (attemptTask s t).2.2.failure_cost_multiplier = s.failure_cost_multiplier ∧
    (attemptTask s t).2.2.g = s.g := by
  by_cases h : t.status = TaskStatus.READY_TO_DEPLOY
  · by_cases hf : (s.g s.idx).r < s.params.base_deploy_failure_rate
    · rw [attemptTask_fail s t h hf]
      exact ⟨⟨rfl, rfl, rfl, rfl, Or.inr (Or.inr ⟨h, rfl, rfl, rfl⟩)⟩,
        rfl, rfl, rfl, rfl, rfl, rfl, rfl⟩
    · rw [attemptTask_deployed s t h hf]
      exact ⟨⟨rfl, rfl, rfl, rfl, Or.inr (Or.inl ⟨h, rfl, rfl, rfl⟩)⟩,
        rfl, rfl, rfl, rfl, rfl, rfl, rfl⟩
  · rw [attemptTask_not_ready s t h]
    exact ⟨⟨rfl, rfl, rfl, rfl, Or.inl rfl⟩, rfl, rfl, rfl, rfl, rfl, rfl, rfl⟩

theorem attemptLoop_spec : ∀ (ts : List Task) (s : SimState),
    (attemptLoop s ts).1.length = ts.length ∧
    (∀ i < ts.length,
      AttemptRel s.params s.current_date (ts.getD i dummyTask)
        ((attemptLoop s ts).1.getD i dummyTask)) ∧
    (attemptLoop s ts).2.2.params = s.params ∧
    (attemptLoop s ts).2.2.current_date = s.current_date ∧
    (attemptLoop s ts).2.2.tasks = s.tasks ∧
    (attemptLoop s ts).2.2.daily_costs = s.daily_costs ∧
    (attemptLoop s ts).2.2.allow_friday_deploys = s.allow_friday_deploys ∧
    (attemptLoop s ts).2.2.failure_cost_multiplier = s.failure_cost_multiplier ∧
    (attemptLoop s ts).2.2.g = s.g := by
  intro ts
  induction ts with
  | nil =>
    intro s
    refine ⟨rfl, ?_, rfl, rfl, rfl, rfl, rfl, rfl, rfl⟩
    intro i hi
    simp at hi
  | cons t ts ih =>
    intro s
    obtain ⟨hrel, hp, hcd, htk, hdc, haf, hfm, hgg⟩ := attemptTask_spec s t
    obtain ⟨hlen, hall, hp2, hcd2, htk2, hdc2, haf2, hfm2, hgg2⟩ := ih (attemptTask s t).2.2
    unfold attemptLoop
    simp only []
    refine ⟨by simp [hlen], ?_, by rw [hp2, hp], by rw [hcd2, hcd], by rw [htk2, htk],
      by rw [hdc2, hdc], by rw [haf2, haf], by rw [hfm2, hfm], by rw [hgg2, hgg]⟩
    intro i hi
    cases i with
    | zero => simpa using hrel
    | succ j =>
      have hj : j < ts.length := by simpa using hi
      have := hall j hj
      rw [hp, hcd] at this
      simpa using this

theorem attempt_deployments_spec (s : SimState) :
    (attempt_deployments s).2.tasks.length = s.tasks.length ∧
    (∀ i < s.tasks.length,
      AttemptRel s.params s.current_date (s.tasks.getD i dummyTask)
        ((attempt_deployments s).2.tasks.getD i dummyTask)) ∧
    (attempt_deployments s).2.params = s.params ∧
    (attempt_deployments s).2.current_date = s.current_date ∧
    (attempt_deployments s).2.daily_costs = s.daily_costs ∧
    (attempt_deployments s).2.allow_friday_deploys = s.allow_friday_deploys ∧
    (attempt_deployments s).2.failure_cost_multiplier = s.failure_cost_multiplier ∧
    (attempt_deployments s).2.g = s.g := by
  unfold attempt_deployments
  by_cases hgate : should_deploy_today s = false
  · rw [if_pos hgate]
    refine ⟨rfl, ?_, rfl, rfl, rfl, rfl, rfl, rfl⟩
    intro i hi
    exact ⟨rfl, rfl, rfl, rfl, Or.inl rfl⟩
  · rw [if_neg hgate]
    obtain ⟨hlen, hall, hp, hcd, -, hdc, haf, hfm, hgg⟩ := attemptLoop_spec s.tasks s
    exact ⟨hlen, hall, hp, hcd, hdc, haf, hfm, hgg⟩

theorem attempt_deployments_total_delta (s : SimState) :
    (attempt_deployments s).2.total_cost = s.total_cost + (attempt_deployments s).1 := by
  unfold attempt_deployments
  by_cases hgate : should_deploy_today s = false
  · rw [if_pos hgate]
    simp
  · rw [if_neg hgate]
    simp only []
    exact attemptLoop_total_delta s.tasks s

theorem calculate_daily_delay_cost_state (s : SimState) :
    (calculate_daily_delay_cost s).2.tasks = s.tasks ∧
    (calculate_daily_delay_cost s).2.params = s.params ∧
    (calculate_daily_delay_cost s).2.current_date = s.current_date ∧
    (calculate_daily_delay_cost s).2.daily_costs = s.daily_costs ∧
    (calculate_daily_delay_cost s).2.allow_friday_deploys = s.allow_friday_deploys ∧
    (calculate_daily_delay_cost s).2.failure_cost_multiplier = s.failure_cost_multiplier ∧
    (calculate_daily_delay_cost s).2.g = s.g ∧
    (calculate_daily_delay_cost s).2.total_cost =
      s.total_cost + (calculate_daily_delay_cost s).1 := by
  unfold calculate_daily_delay_cost
  by_cases hc : ((s.tasks.filter (fun t => t.status = TaskStatus.READY_TO_DEPLOY)).isEmpty = false
      ∧ should_deploy_today s = false)
  · rw [if_pos hc]
    exact ⟨rfl, rfl, rfl, rfl, rfl, rfl, rfl, rfl⟩
  · rw [if_neg hc]
    exact ⟨rfl, rfl, rfl, rfl, rfl, rfl, rfl, by simp⟩

theorem simulate_day_ledger (s s1 : SimState) (h : simulate_day s = some s1) :
    s1.params = s.params ∧ s1.allow_friday_deploys = s.allow_friday_deploys ∧
    s1.failure_cost_multiplier = s.failure_cost_multiplier ∧ s1.g = s.g ∧
    s1.current_date = s.current_date + 1 ∧
    ∃ c : Rat, s1.daily_costs = s.daily_costs ++ [c] ∧
      s1.total_cost = s.total_cost + c := by
  unfold simulate_day at h
  split at h
  case h_1 => cases h
  case h_2 s2 hg =>
    split at h
    case h_1 => cases h
    case h_2 s3 hpr =>
      have h1 := Option.some.inj h
      obtain ⟨-, gtc, gdc, -, gcd, gp, gaf, gfm, ggg⟩ := genLoop_spec _ s s2 hg
      obtain ⟨-, -, ptc, pdc, -, pcd, pp, paf, pfm, pgg⟩ := progress_tasks_spec s2 s3 hpr
      obtain ⟨-, -, ap, acd, adc, aaf, afm, agg⟩ := attempt_deployments_spec s3
      have hat := attempt_deployments_total_delta s3
      obtain ⟨-, dp, dcd, ddc, daf, dfm, dgg, dtc⟩ :=
        calculate_daily_delay_cost_state (attempt_deployments s3).2
      refine ⟨?_, ?_, ?_, ?_, ?_, (attempt_deployments s3).1 +
        (calculate_daily_delay_cost (attempt_deployments s3).2).1, ?_, ?_⟩
      · rw [← h1]
        show (calculate_daily_delay_cost (attempt_deployments s3).2).2.params = s.params
        rw [dp, ap, pp, gp]
      · rw [← h1]
        show (calculate_daily_delay_cost (attempt_deployments s3).2).2.allow_friday_deploys =
          s.allow_friday_deploys
        rw [daf, aaf, paf, gaf]
      · rw [← h1]
        show (calculate_daily_delay_cost (attempt_deployments s3).2).2.failure_cost_multiplier =
          s.failure_cost_multiplier
        rw [dfm, afm, pfm, gfm]
      · rw [← h1]
        show (calculate_daily_delay_cost (attempt_deployments s3).2).2.g = s.g
        rw [dgg, agg, pgg, ggg]
      · rw [← h1]
        show (calculate_daily_delay_cost (attempt_deployments s3).2).2.current_date + 1 =
          s.current_date + 1
        rw [dcd, acd, pcd, gcd]
      · rw [← h1]
        show (calculate_daily_delay_cost (attempt_deployments s3).2).2.daily_costs ++ _ = _
        rw [ddc, adc, pdc, gdc]
      · rw [← h1]
        show (calculate_daily_delay_cost (attempt_deployments s3).2).2.total_cost = _
        rw [dtc, hat, ptc, gtc]
        ring

/-- C9: after any number of day-steps from a fresh engine, the running
total cost equals the sum of the per-day cost sequence, and that
sequence has one entry per executed day-step. -/
theorem ledger_invariant : ∀ (n : Nat) (flag : Bool) (pr : SimulationParameters) (m : Rat)
    (g : Nat → Draw) (d : Nat) (s1 : SimState),
    runStateN (init flag pr m g d) n = some s1 →
    s1.total_cost = s1.daily_costs.sum ∧ s1.daily_costs.length = n := by
  have aux : ∀ (n : Nat) (s s1 : SimState), runStateN s n = some s1 →
      s.total_cost = s.daily_costs.sum →
      s1.total_cost = s1.daily_costs.sum ∧
      s1.daily_costs.length = s.daily_costs.length + n := by
    intro n
    induction n with
    | zero =>
      intro s s1 h hInv
      have h1 := Option.some.inj h
      subst h1
      exact ⟨hInv, rfl⟩
    | succ n ih =>
      intro s s1 h hInv
      unfold runStateN at h
      cases hd : simulate_day s with
      | none => rw [hd] at h; cases h
      | some s2 =>
        rw [hd] at h
        have h2 : runStateN s2 n = some s1 := h
        obtain ⟨-, -, -, -, -, c, hdc, htc⟩ := simulate_day_ledger s s2 hd
        have hInv2 : s2.total_cost = s2.daily_costs.sum := by
          rw [htc, hdc, hInv]
          simp
        obtain ⟨ha, hb⟩ := ih s2 s1 h2 hInv2
        refine ⟨ha, ?_⟩
        rw [hb, hdc]
        simp
        omega
  intro n flag pr m g d s1 h
  have hstep := aux n (init flag pr m g d) s1 h (by simp [init])
  refine ⟨hstep.1, ?_⟩
  have h2 := hstep.2
  simpa [init] using h2

/-! Index and membership helpers for positional task access. -/

theorem getD_eq_getElem_of_lt {α : Type} (l : List α) (d : α) (i : Nat) (h : i < l.length) :
    l.getD i d = l[i] := by
  simp [List.getD_eq_getElem?_getD, List.getElem?_eq_getElem h]

theorem getD_mem_of_lt {α : Type} (l : List α) (d : α) (i : Nat) (h : i < l.length) :
    l.getD i d ∈ l := by
  rw [getD_eq_getElem_of_lt l d i h]
  exact List.getElem_mem h

theorem getD_append_left_of_lt {α : Type} (l l2 : List α) (d : α) (i : Nat)
    (h : i < l.length) : (l ++ l2).getD i d = l.getD i d := by
  have h2 : i < (l ++ l2).length := by
    rw [List.length_append]
    omega
  rw [getD_eq_getElem_of_lt _ d i h2, getD_eq_getElem_of_lt l d i h]
  exact List.getElem_append_left h

theorem getD_append_right_of_le {α : Type} (l l2 : List α) (d : α) (i : Nat)
    (h : l.length ≤ i) : (l ++ l2).getD i d = l2.getD (i - l.length) d := by
  simp [List.getD_eq_getElem?_getD, List.getElem?_append_right h]

/-- Pointwise account of one whole day-step: the task list only grows;
every slot of the new task list is reached from either a pre-existing
task (same position) or a task generated this day (IN_PROGRESS, no
deploy date, zero recovery hours, at most one dependency), through one
progression move followed by one deployment move. -/
theorem simulate_day_tasks (s s1 : SimState) (h : simulate_day s = some s1) :
    s.tasks.length ≤ s1.tasks.length ∧
    ∀ i, i < s1.tasks.length →
      ∃ t0 tmid : Task,
        ((i < s.tasks.length ∧ t0 = s.tasks.getD i dummyTask) ∨
         (s.tasks.length ≤ i ∧ t0.status = TaskStatus.IN_PROGRESS ∧
           t0.deploy_date = none ∧ t0.recovery_hours = 0 ∧ t0.dependencies.length ≤ 1)) ∧
        ProgressRel t0 tmid ∧
        AttemptRel s.params s.current_date tmid (s1.tasks.getD i dummyTask) := by
  unfold simulate_day at h
  split at h
  case h_1 => cases h
  case h_2 s2 hg =>
    split at h
    case h_1 => cases h
    case h_2 s3 hpr =>
      have h1 := Option.some.inj h
      obtain ⟨⟨ts_new, hts, hnew⟩, -, -, -, gcd, gp, -, -, -⟩ := genLoop_spec _ s s2 hg
      obtain ⟨plen, pall, -, -, -, pcd, pp, -, -, -⟩ := progress_tasks_spec s2 s3 hpr
      obtain ⟨alen, aall, -, -, -, -, -, -⟩ := attempt_deployments_spec s3
      have htasks : s1.tasks = (attempt_deployments s3).2.tasks := by
        rw [← h1]
        exact (calculate_daily_delay_cost_state (attempt_deployments s3).2).1
      have hlen1 : s1.tasks.length = s.tasks.length + ts_new.length := by
        rw [htasks, alen, plen, hts, List.length_append]
      constructor
      · omega
      · intro i hi
        have hi3 : i < s3.tasks.length := by
          rw [plen, hts, List.length_append]
          omega
        have hi2 : i < s2.tasks.length := by rw [← plen]; exact hi3
        have harel := aall i hi3
        rw [pp, gp, pcd, gcd, ← htasks] at harel
        have hprel := pall i hi2
        by_cases hold : i < s.tasks.length
        · refine ⟨s.tasks.getD i dummyTask, s3.tasks.getD i dummyTask, Or.inl ⟨hold, rfl⟩, ?_, harel⟩
          have : s2.tasks.getD i dummyTask = s.tasks.getD i dummyTask := by
            rw [hts]
            exact getD_append_left_of_lt _ _ _ _ hold
          rw [← this]
          exact hprel
        · have hge : s.tasks.length ≤ i := Nat.le_of_not_lt hold
          have hnewlen : i - s.tasks.length < ts_new.length := by
            rw [hts, List.length_append] at hi2
            omega
          have hmem : ts_new.getD (i - s.tasks.length) dummyTask ∈ ts_new :=
            getD_mem_of_lt _ _ _ hnewlen
          obtain ⟨hst, hdd, hrh, hdl⟩ := hnew _ hmem
          refine ⟨ts_new.getD (i - s.tasks.length) dummyTask, s3.tasks.getD i dummyTask,
            Or.inr ⟨hge, hst, hdd, hrh, hdl⟩, ?_, harel⟩
          have : s2.tasks.getD i dummyTask = ts_new.getD (i - s.tasks.length) dummyTask := by
            rw [hts]
            exact getD_append_right_of_le _ _ _ _ hge
          rw [← this]
          exact hprel

/-- C10: every task is created with at most one dependency and
dependencies are only removed afterwards, so at every reachable state
each task holds at most one dependency. -/
theorem deps_at_most_one : ∀ (n : Nat) (flag : Bool) (pr : SimulationParameters) (m : Rat)
    (g : Nat → Draw) (d : Nat) (s1 : SimState),
    runStateN (init flag pr m g d) n = some s1 → DepsAtMostOne s1.tasks := by
  have aux : ∀ (n : Nat) (s s1 : SimState), runStateN s n = some s1 →
      DepsAtMostOne s.tasks → DepsAtMostOne s1.tasks := by
    intro n
    induction n with
    | zero =>
      intro s s1 h hInv
      have h1 := Option.some.inj h
      subst h1
      exact hInv
    | succ n ih =>
      intro s s1 h hInv
      unfold runStateN at h
      cases hd : simulate_day s with
      | none => rw [hd] at h; cases h
      | some s2 =>
        rw [hd] at h
        refine ih s2 s1 h ?_
        obtain ⟨-, hpt⟩ := simulate_day_tasks s s2 hd
        intro t ht
        obtain ⟨i, hilen, hieq⟩ := List.mem_iff_getElem.mp ht
        obtain ⟨t0, tmid, h0, hp, ha⟩ := hpt i hilen
        have hdeps1 : (s2.tasks.getD i dummyTask).dependencies = tmid.dependencies :=
          ha.2.2.2.1
        have hdeps2 : tmid.dependencies.length ≤ t0.dependencies.length := hp.2.2.2.2.2.1
        have ht0 : t0.dependencies.length ≤ 1 := by
          rcases h0 with ⟨hlt, heq⟩ | ⟨-, -, -, -, hle⟩
          · rw [heq]
            exact hInv _ (getD_mem_of_lt _ _ _ hlt)
          · exact hle
        rw [← hieq, ← getD_eq_getElem_of_lt _ dummyTask _ hilen, hdeps1]
        omega
  intro n flag pr m g d s1 h
  refine aux n (init flag pr m g d) s1 h ?_
  intro t ht
  cases ht

/-- Witness for C10 at zero executed day-steps. -/
theorem deps_at_most_one_witness :
    DepsAtMostOne (init false SIMULATION_DEFAULTS 1 gHalf 0).tasks :=
  deps_at_most_one 0 false SIMULATION_DEFAULTS 1 gHalf 0
    (init false SIMULATION_DEFAULTS 1 gHalf 0) rfl

/-- Transfer of the C8 per-task invariant through one progression move
followed by one deployment move. -/
theorem task_inv_step (pr : SimulationParameters) (date : Nat) (t0 tmid t1 : Task)
    (hpos1 : 0 < pr.normal_recovery_hours)
    (hpos2 : 0 < pr.normal_recovery_hours * pr.weekend_recovery_multiplier)
    (h0a : (t0.deploy_date ≠ none) ↔ t0.status = TaskStatus.DEPLOYED)
    (h0b : 0 < t0.recovery_hours ↔ t0.status = TaskStatus.FAILED)
    (h0c : t0.status ≠ TaskStatus.FAILED → t0.recovery_hours = 0)
    (hp : ProgressRel t0 tmid) (ha : AttemptRel pr date tmid t1) :
    ((t1.deploy_date ≠ none) ↔ t1.status = TaskStatus.DEPLOYED) ∧
    (0 < t1.recovery_hours ↔ t1.status = TaskStatus.FAILED) ∧
    (t1.status ≠ TaskStatus.FAILED → t1.recovery_hours = 0) := by
  obtain ⟨-, -, -, hdd, hrh, -, hst⟩ := hp
  have hma : (tmid.deploy_date ≠ none) ↔ tmid.status = TaskStatus.DEPLOYED := by
    rcases hst with he | ⟨h1, h2⟩
    · rw [hdd, he]
      exact h0a
    · rw [hdd, h2]
      constructor
      · intro hne
        have hx := h0a.mp hne
        rw [h1] at hx
        exact TaskStatus.noConfusion hx
      · intro hx
        exact TaskStatus.noConfusion hx
  have hmb : 0 < tmid.recovery_hours ↔ tmid.status = TaskStatus.FAILED := by
    rcases hst with he | ⟨h1, h2⟩
    · rw [hrh, he]
      exact h0b
    · rw [hrh, h2]
      constructor
      · intro hpos
        have hx := h0b.mp hpos
        rw [h1] at hx
        exact TaskStatus.noConfusion hx
      · intro hx
        exact TaskStatus.noConfusion hx
  have hmc : tmid.status ≠ TaskStatus.FAILED → tmid.recovery_hours = 0 := by
    rcases hst with he | ⟨h1, h2⟩
    · rw [hrh, he]
      exact h0c
    · intro hne
      rw [hrh]
      refine h0c ?_
      rw [h1]
      intro hx
      exact TaskStatus.noConfusion hx
  rcases ha.2.2.2.2 with he | ⟨hm, h1st, h1dd, h1rh⟩ | ⟨hm, h1st, h1dd, h1rh⟩
  · subst he
    exact ⟨hma, hmb, hmc⟩
  · have hrec0 : tmid.recovery_hours = 0 := by
      refine hmc ?_
      rw [hm]
      intro hx
      exact TaskStatus.noConfusion hx
    refine ⟨?_, ?_, ?_⟩
    · rw [h1dd, h1st]
      simp
    · rw [h1rh, hrec0, h1st]
      constructor
      · intro hx
        exact absurd hx (lt_irrefl 0)
      · intro hx
        exact TaskStatus.noConfusion hx
    · intro hne
      rw [h1rh, hrec0]
  · have hdnone : tmid.deploy_date = none := by
      by_contra hc
      have hx := hma.mp hc
      rw [hm] at hx
      exact TaskStatus.noConfusion hx
    have hposrec : 0 < recoveryTimeAt pr date := by
      unfold recoveryTimeAt
      split
      · exact hpos2
      · exact hpos1
    refine ⟨?_, ?_, ?_⟩
    · rw [h1dd, hdnone, h1st]
      constructor
      · intro hx
        exact absurd rfl hx
      · intro hx
        exact TaskStatus.noConfusion hx
    · rw [h1rh, h1st]
      exact ⟨fun _ => rfl, fun _ => hposrec⟩
    · intro hcon
      rw [h1st] at hcon
      exact absurd rfl hcon

/-- C8: with positive recovery-hour configuration, at every reachable
state the deploy date is set exactly on DEPLOYED tasks and the recovery
hours are positive exactly on FAILED tasks, zero otherwise. -/
theorem deploy_date_recovery_invariant : ∀ (n : Nat) (flag : Bool)
    (pr : SimulationParameters) (m : Rat) (g : Nat → Draw) (d : Nat) (s1 : SimState),
    0 < pr.normal_recovery_hours →
    0 < pr.normal_recovery_hours * pr.weekend_recovery_multiplier →
    runStateN (init flag pr m g d) n = some s1 →
    TasksInv s1.tasks := by
  have aux : ∀ (n : Nat) (s s1 : SimState), runStateN s n = some s1 →
      0 < s.params.normal_recovery_hours →
      0 < s.params.normal_recovery_hours * s.params.weekend_recovery_multiplier →
      TasksInv s.tasks → TasksInv s1.tasks := by
    intro n
    induction n with
    | zero =>
      intro s s1 h _ _ hInv
      have h1 := Option.some.inj h
      subst h1
      exact hInv
    | succ n ih =>
      intro s s1 h hpos1 hpos2 hInv
      unfold runStateN at h
      cases hd : simulate_day s with
      | none => rw [hd] at h; cases h
      | some s2 =>
        rw [hd] at h
        have hparams : s2.params = s.params := (simulate_day_ledger s s2 hd).1
        refine ih s2 s1 h (by rw [hparams]; exact hpos1) (by rw [hparams]; exact hpos2) ?_
        obtain ⟨-, hpt⟩ := simulate_day_tasks s s2 hd
        intro t ht
        obtain ⟨i, hilen, hieq⟩ := List.mem_iff_getElem.mp ht
        obtain ⟨t0, tmid, h0, hp, ha⟩ := hpt i hilen
        have ht0inv : ((t0.deploy_date ≠ none) ↔ t0.status = TaskStatus.DEPLOYED) ∧
            (0 < t0.recovery_hours ↔ t0.status = TaskStatus.FAILED) ∧
            (t0.status ≠ TaskStatus.FAILED → t0.recovery_hours = 0) := by
          rcases h0 with ⟨hlt, heq⟩ | ⟨-, hst, hdd2, hrh2, -⟩
          · rw [heq]
            exact hInv _ (getD_mem_of_lt _ _ _ hlt)
          · rw [hst, hdd2, hrh2]
            refine ⟨by simp, ?_, fun _ => rfl⟩
            constructor
            · intro hx
              exact absurd hx (lt_irrefl 0)
            · intro hx
              exact TaskStatus.noConfusion hx
        have hfin := task_inv_step s.params s.current_date t0 tmid
          (s2.tasks.getD i dummyTask) hpos1 hpos2 ht0inv.1 ht0inv.2.1 ht0inv.2.2 hp ha
        rw [← hieq, ← getD_eq_getElem_of_lt _ dummyTask _ hilen]
        exact hfin
  intro n flag pr m g d s1 hpos1 hpos2 h
  refine aux n (init flag pr m g d) s1 h hpos1 hpos2 ?_
  intro t ht
  cases ht

/-- Witness for C8 with the default parameters at zero day-steps. -/
theorem deploy_date_recovery_invariant_witness :
    TasksInv (init false SIMULATION_DEFAULTS 1 gHalf 0).tasks :=
  deploy_date_recovery_invariant 0 false SIMULATION_DEFAULTS 1 gHalf 0
    (init false SIMULATION_DEFAULTS 1 gHalf 0)
    (by norm_num [SIMULATION_DEFAULTS]) (by norm_num [SIMULATION_DEFAULTS]) rfl

/-! Status-transition lemmas for C1. -/

theorem progressRel_stepOk (t t1 : Task) (h : ProgressRel t t1) :
    stepOk t.status t1.status := by
  rcases h.2.2.2.2.2.2 with he | ⟨h1, h2⟩
  · exact Or.inl he.symm
  · exact Or.inr (Or.inl ⟨h1, h2⟩)

theorem attemptRel_stepOk (pr : SimulationParameters) (date : Nat) (t t1 : Task)
    (h : AttemptRel pr date t t1) : stepOk t.status t1.status := by
  rcases h.2.2.2.2 with he | ⟨hm, h1st, -, -⟩ | ⟨hm, h1st, -, -⟩
  · exact Or.inl (congrArg Task.status he).symm
  · exact Or.inr (Or.inr ⟨hm, Or.inl h1st⟩)
  · exact Or.inr (Or.inr ⟨hm, Or.inr h1st⟩)

theorem stepOk_comp : ∀ a b c : TaskStatus, stepOk a b → stepOk b c → statusLE a c := by
  decide

/-- C1: statuses only move forward. Task generation leaves existing
tasks alone and adds only IN_PROGRESS tasks; task progression and
deployment each move every task by at most one allowed edge of
IN_PROGRESS to READY_TO_DEPLOY to one of DEPLOYED or FAILED (so nothing
leaves DEPLOYED or FAILED and the terminal states are reached only from
READY_TO_DEPLOY); delay accrual never touches tasks; and across a whole
day-step every pre-existing task moves forward along the lifecycle
order. -/
theorem status_transitions_forward :
    (∀ s s1 : SimState, generate_daily_tasks s = some s1 →
      StepForward s.tasks s1.tasks ∧
      ∀ i, s.tasks.length ≤ i → i < s1.tasks.length →
        (s1.tasks.getD i dummyTask).status = TaskStatus.IN_PROGRESS) ∧
    (∀ s s1 : SimState, progress_tasks s = some s1 → StepForward s.tasks s1.tasks) ∧
    (∀ s : SimState, StepForward s.tasks (attempt_deployments s).2.tasks) ∧
    (∀ s : SimState, StepForward s.tasks (calculate_daily_delay_cost s).2.tasks) ∧
    (∀ s s1 : SimState, simulate_day s = some s1 → ForwardLE s.tasks s1.tasks) := by
  refine ⟨?_, ?_, ?_, ?_, ?_⟩
  · intro s s1 h
    obtain ⟨⟨ts_new, hts, hnew⟩, -, -, -, -, -, -, -, -⟩ := genLoop_spec _ s s1 h
    refine ⟨⟨?_, ?_⟩, ?_⟩
    · rw [hts]
      simp
    · intro i hi
      rw [hts, getD_append_left_of_lt _ _ _ _ hi]
      exact ⟨rfl, Or.inl rfl⟩
    · intro i hge hlt
      rw [hts] at hlt ⊢
      rw [getD_append_right_of_le _ _ _ _ hge]
      have hlt2 : i - s.tasks.length < ts_new.length := by
        rw [List.length_append] at hlt
        omega
      exact (hnew _ (getD_mem_of_lt _ _ _ hlt2)).1
  · intro s s1 h
    obtain ⟨hlen, hall, -, -, -, -, -, -, -, -⟩ := progress_tasks_spec s s1 h
    refine ⟨by omega, ?_⟩
    intro i hi
    have hrel := hall i hi
    exact ⟨hrel.1, progressRel_stepOk _ _ hrel⟩
  · intro s
    obtain ⟨hlen, hall, -, -, -, -, -, -⟩ := attempt_deployments_spec s
    refine ⟨by omega, ?_⟩
    intro i hi
    have hrel := hall i hi
    exact ⟨hrel.1, attemptRel_stepOk _ _ _ _ hrel⟩
  · intro s
    rw [(calculate_daily_delay_cost_state s).1]
    refine ⟨Nat.le_refl _, ?_⟩
    intro i hi
    exact ⟨rfl, Or.inl rfl⟩
  · intro s s1 h
    obtain ⟨hlen, hpt⟩ := simulate_day_tasks s s1 h
    refine ⟨hlen, ?_⟩
    intro i hi
    have hi1 : i < s1.tasks.length := by omega
    obtain ⟨t0, tmid, h0, hp, ha⟩ := hpt i hi1
    rcases h0 with ⟨-, heq⟩ | ⟨hge, -⟩
    · subst heq
      refine ⟨?_, ?_⟩
      · rw [ha.1, hp.1]
      · exact stepOk_comp _ _ _ (progressRel_stepOk _ _ hp) (attemptRel_stepOk _ _ _ _ ha)
    · omega

unseal Rat.mul Rat.add Rat.sub Rat.inv in
/-- Witness for C1: the generate, progress, deploy and whole-day clauses
at a concrete state holding one ready task, under all-zero draws. -/
theorem status_transitions_forward_witness :
    (StepForward wMonState.tasks
      ((generate_daily_tasks wMonState).getD wMonState).tasks ∧
      ∀ i, wMonState.tasks.length ≤ i →
        i < ((generate_daily_tasks wMonState).getD wMonState).tasks.length →
        (((generate_daily_tasks wMonState).getD wMonState).tasks.getD i dummyTask).status =
          TaskStatus.IN_PROGRESS) ∧
    StepForward wMonState.tasks (attempt_deployments wMonState).2.tasks ∧
    ForwardLE wMonState.tasks ((simulate_day wMonState).getD wMonState).tasks :=
  ⟨status_transitions_forward.1 wMonState
      ((generate_daily_tasks wMonState).getD wMonState) rfl,
   status_transitions_forward.2.2.1 wMonState,
   status_transitions_forward.2.2.2.2 wMonState
      ((simulate_day wMonState).getD wMonState) rfl⟩

/-! Frame lemmas for C2: running a state that differs only in the
failure cost multiplier and the cost ledger. -/

@[simp] theorem withCost_params (s : SimState) (m c : Rat) (l : List Rat) :
    (withCost s m c l).params = s.params := rfl

@[simp] theorem withCost_g (s : SimState) (m c : Rat) (l : List Rat) :
    (withCost s m c l).g = s.g := rfl

@[simp] theorem withCost_idx (s : SimState) (m c : Rat) (l : List Rat) :
    (withCost s m c l).idx = s.idx := rfl

@[simp] theorem withCost_tasks (s : SimState) (m c : Rat) (l : List Rat) :
    (withCost s m c l).tasks = s.tasks := rfl

@[simp] theorem withCost_current_date (s : SimState) (m c : Rat) (l : List Rat) :
    (withCost s m c l).current_date = s.current_date := rfl

@[simp] theorem withCost_task_counter (s : SimState) (m c : Rat) (l : List Rat) :
    (withCost s m c l).task_counter = s.task_counter := rfl

@[simp] theorem withCost_metrics (s : SimState) (m c : Rat) (l : List Rat) :
    (withCost s m c l).metrics = s.metrics := rfl

@[simp] theorem withCost_allow (s : SimState) (m c : Rat) (l : List Rat) :
    (withCost s m c l).allow_friday_deploys = s.allow_friday_deploys := rfl

@[simp] theorem withCost_mult (s : SimState) (m c : Rat) (l : List Rat) :
    (withCost s m c l).failure_cost_multiplier = m := rfl

@[simp] theorem withCost_total (s : SimState) (m c : Rat) (l : List Rat) :
    (withCost s m c l).total_cost = c := rfl

@[simp] theorem withCost_daily (s : SimState) (m c : Rat) (l : List Rat) :
    (withCost s m c l).daily_costs = l := rfl

theorem should_deploy_today_withCost (s : SimState) (m c : Rat) (l : List Rat) :
    should_deploy_today (withCost s m c l) = should_deploy_today s := rfl

theorem calculate_recovery_time_withCost (s : SimState) (m c : Rat) (l : List Rat) :
    calculate_recovery_time (withCost s m c l) = calculate_recovery_time s := rfl

theorem generateTask_withCost (s : SimState) (m c : Rat) (l : List Rat) :
    generateTask (withCost s m c l) =
      (generateTask s).map (fun s2 => withCost s2 m c l) := by
  by_cases hlo : s.params.task_complexity_range.2 < s.params.task_complexity_range.1
  · rw [generateTask_none_badrange s hlo, generateTask_none_badrange (withCost s m c l) hlo]
    rfl
  · by_cases hdep : (s.g (s.idx + 1)).r < s.params.dependency_probability
    · cases hteams : s.params.other_teams with
      | nil =>
        rw [generateTask_none_emptyteams s hlo hdep hteams,
          generateTask_none_emptyteams (withCost s m c l) hlo hdep hteams]
        rfl
      | cons x xs =>
        rw [generateTask_eq_dep s hlo hdep x xs hteams,
          generateTask_eq_dep (withCost s m c l) hlo hdep x xs hteams]
        rfl
    · rw [generateTask_eq_nodep s hlo hdep,
        generateTask_eq_nodep (withCost s m c l) hlo hdep]
      rfl

theorem genLoop_withCost : ∀ (n : Nat) (s : SimState) (m c : Rat) (l : List Rat),
    genLoop n (withCost s m c l) = (genLoop n s).map (fun s2 => withCost s2 m c l) := by
  intro n
  induction n with
  | zero => intro s m c l; rfl
  | succ n ih =>
    intro s m c l
    unfold genLoop
    rw [generateTask_withCost]
    cases hg : generateTask s with
    | none => rfl
    | some s2 =>
      simp only [Option.map_some', Option.some_bind]
      exact ih s2 m c l

theorem generate_daily_tasks_withCost (s : SimState) (m c : Rat) (l : List Rat) :
    generate_daily_tasks (withCost s m c l) =
      (generate_daily_tasks s).map (fun s2 => withCost s2 m c l) := by
  unfold generate_daily_tasks
  rw [withCost_params]
  exact genLoop_withCost _ s m c l

theorem progressDeps_withCost : ∀ (fuel : Nat) (s : SimState) (deps : List String) (i : Nat)
    (m c : Rat) (l : List Rat),
    progressDeps fuel (withCost s m c l) deps i =
      (progressDeps fuel s deps i).map (fun q => (q.1, withCost q.2 m c l)) := by
  intro fuel
  induction fuel with
  | zero => intro s deps i m c l; rfl
  | succ fuel ih =>
    intro s deps i m c l
    unfold progressDeps
    by_cases hi : i < deps.length
    · rw [if_pos hi, if_pos hi]
      rw [withCost_params]
      cases hfind : s.params.other_teams.find? (fun t => t.name = deps.getD i "") with
      | none => rfl
      | some team =>
        have hdraw : (randRandom (withCost s m c l)).1 = (randRandom s).1 := rfl
        have hst : (randRandom (withCost s m c l)).2 = withCost (randRandom s).2 m c l := rfl
        by_cases hlt : (randRandom s).1 < team.task_completion_rate
        · simp only [hdraw, hst, if_pos hlt]
          exact ih (randRandom s).2 _ _ m c l
        · simp only [hdraw, hst, if_neg hlt]
          exact ih (randRandom s).2 _ _ m c l
    · rw [if_neg hi, if_neg hi]
      rfl

theorem progressTask_withCost (s : SimState) (t : Task) (m c : Rat) (l : List Rat) :
    progressTask (withCost s m c l) t =
      (progressTask s t).map (fun q => (q.1, withCost q.2 m c l)) := by
  unfold progressTask
  by_cases hst : t.status = TaskStatus.IN_PROGRESS
  · rw [if_pos hst, if_pos hst]
    rw [progressDeps_withCost]
    cases hpd : progressDeps t.dependencies.length s t.dependencies 0 with
    | none => rfl
    | some q =>
      have hd2 : (randRandom (withCost q.2 m c l)).1 = (randRandom q.2).1 := rfl
      by_cases hemp : q.1.isEmpty
      · by_cases hrdy : (randRandom q.2).1 < (3 : Rat) / 10
        · simp only [Option.map_some', hd2, if_pos hemp, if_pos hrdy]
          rfl
        · simp only [Option.map_some', hd2, if_pos hemp, if_neg hrdy]
          rfl
      · simp only [Option.map_some', if_neg hemp]
  · rw [if_neg hst, if_neg hst]
    rfl

theorem progressLoop_withCost : ∀ (ts : List Task) (s : SimState) (m c : Rat) (l : List Rat),
    progressLoop (withCost s m c l) ts =
      (progressLoop s ts).map (fun q => (q.1, withCost q.2 m c l)) := by
  intro ts
  induction ts with
  | nil => intro s m c l; rfl
  | cons t ts ih =>
    intro s m c l
    unfold progressLoop
    rw [progressTask_withCost]
    cases hpt : progressTask s t with
    | none => rfl
    | some q =>
      simp only [Option.map_some']
      rw [ih q.2 m c l]
      cases hpl : progressLoop q.2 ts with
      | none => rfl
      | some q2 => rfl

theorem progress_tasks_withCost (s : SimState) (m c : Rat) (l : List Rat) :
    progress_tasks (withCost s m c l) =
      (progress_tasks s).map (fun s2 => withCost s2 m c l) := by
  unfold progress_tasks
  rw [withCost_tasks, progressLoop_withCost]
  cases hpl : progressLoop s s.tasks with
  | none => rfl
  | some q => rfl

theorem attemptTask_withCost (s : SimState) (t : Task)
    (h1 : s.failure_cost_multiplier = 1) (m c : Rat) (l : List Rat) :
    attemptTask (withCost s m c l) t =
      ((attemptTask s t).1, m * (attemptTask s t).2.1,
       withCost (attemptTask s t).2.2 m (c + m * (attemptTask s t).2.1) l) := by
  by_cases hr : t.status = TaskStatus.READY_TO_DEPLOY
  · by_cases hf : (s.g s.idx).r < s.params.base_deploy_failure_rate
    · rw [attemptTask_fail s t hr hf, attemptTask_fail (withCost s m c l) t hr hf,
        calculate_recovery_time_withCost]
      simp only [withCost_params, withCost_g, withCost_idx, withCost_current_date,
        withCost_metrics, withCost_total, withCost_mult, h1, mul_one, withCost,
        Prod.mk.injEq, SimState.mk.injEq, Metrics.mk.injEq, true_and, and_true]
      repeat' constructor
      all_goals first
      | rfl
      | ring
    · rw [attemptTask_deployed s t hr hf, attemptTask_deployed (withCost s m c l) t hr hf]
      simp only [withCost_params, withCost_g, withCost_idx, withCost_current_date,
        withCost_metrics, withCost_total, withCost_mult, withCost, mul_zero, add_zero,
        Prod.mk.injEq, SimState.mk.injEq, Metrics.mk.injEq, true_and, and_true]
  · rw [attemptTask_not_ready s t hr, attemptTask_not_ready (withCost s m c l) t hr]
    simp only [withCost, mul_zero, add_zero, Prod.mk.injEq, SimState.mk.injEq,
      Metrics.mk.injEq, true_and, and_true]

theorem attemptLoop_withCost : ∀ (ts : List Task) (s : SimState),
    s.failure_cost_multiplier = 1 → ∀ (m c : Rat) (l : List Rat),
    attemptLoop (withCost s m c l) ts =
      ((attemptLoop s ts).1, m * (attemptLoop s ts).2.1,
       withCost (attemptLoop s ts).2.2 m (c + m * (attemptLoop s ts).2.1) l) := by
  intro ts
  induction ts with
  | nil =>
    intro s h1 m c l
    unfold attemptLoop
    simp
  | cons t ts ih =>
    intro s h1 m c l
    have hmult : (attemptTask s t).2.2.failure_cost_multiplier = 1 := by
      rw [← h1]
      exact (attemptTask_spec s t).2.2.2.2.2.2.1
    simp only [attemptLoop]
    rw [attemptTask_withCost s t h1 m c l,
      ih (attemptTask s t).2.2 hmult m (c + m * (attemptTask s t).2.1) l]
    simp only [withCost, Prod.mk.injEq, SimState.mk.injEq, Metrics.mk.injEq,
      true_and, and_true]
    repeat' constructor
    all_goals first
    | rfl
    | ring

theorem attempt_deployments_withCost (s : SimState) (h1 : s.failure_cost_multiplier = 1)
    (m c : Rat) (l : List Rat) :
    attempt_deployments (withCost s m c l) =
      (m * (attempt_deployments s).1,
       withCost (attempt_deployments s).2 m (c + m * (attempt_deployments s).1) l) := by
  unfold attempt_deployments
  rw [should_deploy_today_withCost, withCost_tasks]
  by_cases hgate : should_deploy_today s = false
  · rw [if_pos hgate, if_pos hgate]
    simp
  · rw [if_neg hgate, if_neg hgate]
    simp only []
    rw [attemptLoop_withCost s.tasks s h1 m c l]
    rfl

theorem calculate_daily_delay_cost_withCost (s : SimState) (m c : Rat) (l : List Rat) :
    calculate_daily_delay_cost (withCost s m c l) =
      ((calculate_daily_delay_cost s).1,
       withCost (calculate_daily_delay_cost s).2 m (c + (calculate_daily_delay_cost s).1) l) := by
  unfold calculate_daily_delay_cost
  by_cases hc : ((s.tasks.filter (fun t => t.status = TaskStatus.READY_TO_DEPLOY)).isEmpty = false
      ∧ should_deploy_today s = false)
  · simp only [withCost_tasks, should_deploy_today_withCost, if_pos hc]
    rfl
  · simp only [withCost_tasks, should_deploy_today_withCost, if_neg hc]
    simp

theorem simulate_day_eq_fd (s : SimState) :
    simulate_day s = (simulate_day_fd s).map (fun q => q.1) := by
  unfold simulate_day simulate_day_fd
  cases hg : generate_daily_tasks s with
  | none => rfl
  | some s2 =>
    dsimp only
    cases hpr : progress_tasks s2 with
    | none => rfl
    | some s3 => rfl

theorem simulate_day_withCost (s : SimState) (h1 : s.failure_cost_multiplier = 1)
    (m c : Rat) (l : List Rat) :
    simulate_day (withCost s m c l) =
      (simulate_day_fd s).map (fun q =>
        withCost q.1 m (c + m * q.2.1 + q.2.2) (l ++ [m * q.2.1 + q.2.2])) := by
  unfold simulate_day simulate_day_fd
  rw [generate_daily_tasks_withCost]
  cases hg : generate_daily_tasks s with
  | none => rfl
  | some s2 =>
    simp only [Option.map_some']
    rw [progress_tasks_withCost]
    cases hpr : progress_tasks s2 with
    | none => rfl
    | some s3 =>
      simp only [Option.map_some']
      have h3 : s3.failure_cost_multiplier = 1 := by
        rw [← h1, (progress_tasks_spec s2 s3 hpr).2.2.2.2.2.2.2.2.1]
        exact (genLoop_spec _ s s2 hg).2.2.2.2.2.2.2.1
      rw [attempt_deployments_withCost s3 h3 m c l]
      rw [calculate_daily_delay_cost_withCost (attempt_deployments s3).2 m
        (c + m * (attempt_deployments s3).1) l]
      rfl

theorem runFD_fst : ∀ (n : Nat) (s : SimState),
    runStateN s n = (runFD s n).map (fun q => q.1) := by
  intro n
  induction n with
  | zero => intro s; rfl
  | succ n ih =>
    intro s
    unfold runStateN runFD
    rw [simulate_day_eq_fd]
    cases hfd : simulate_day_fd s with
    | none => rfl
    | some q =>
      simp only [Option.map_some', Option.some_bind]
      rw [ih q.1]
      cases hr : runFD q.1 n with
      | none => rfl
      | some q2 => rfl

theorem runStateN_withCost : ∀ (n : Nat) (s : SimState), s.failure_cost_multiplier = 1 →
    ∀ (m c : Rat) (l : List Rat),
    runStateN (withCost s m c l) n =
      (runFD s n).map (fun q =>
        withCost q.1 m (c + (q.2.map (fun p => m * p.1 + p.2)).sum)
          (l ++ q.2.map (fun p => m * p.1 + p.2))) := by
  intro n
  induction n with
  | zero =>
    intro s h1 m c l
    simp [runStateN, runFD, withCost]
  | succ n ih =>
    intro s h1 m c l
    unfold runStateN runFD
    rw [simulate_day_withCost s h1 m c l]
    cases hfd : simulate_day_fd s with
    | none => rfl
    | some q =>
      simp only [Option.map_some', Option.some_bind]
      have hq1 : q.1.failure_cost_multiplier = 1 := by
        have hsd : simulate_day s = some q.1 := by
          rw [simulate_day_eq_fd, hfd]
          rfl
        rw [← h1]
        exact (simulate_day_ledger s q.1 hsd).2.2.1
      rw [ih q.1 hq1 m (c + m * q.2.1 + q.2.2) (l ++ [m * q.2.1 + q.2.2])]
      cases hr : runFD q.1 n with
      | none => rfl
      | some q2 =>
        simp only [Option.map_some', List.map_cons, List.sum_cons]
        have hA : c + m * q.2.1 + q.2.2 +
            (List.map (fun p => m * p.1 + p.2) q2.2).sum =
            c + (m * q.2.1 + q.2.2 + (List.map (fun p => m * p.1 + p.2) q2.2).sum) := by
          ring
        have hB : (l ++ [m * q.2.1 + q.2.2]) ++ List.map (fun p => m * p.1 + p.2) q2.2 =
            l ++ (m * q.2.1 + q.2.2) :: List.map (fun p => m * p.1 + p.2) q2.2 := by
          rw [List.append_assoc]
          rfl
        rw [hA, hB]

/-- C2: running identical parameters, policy flag, construction date
and draws at failure cost multiplier 1 versus 10 consumes the same
draws and produces identical tasks and metrics; each day decomposes
into a failure component f and a delay component d computed at
multiplier 1, the run at multiplier 1 charges f + d per day and the run
at multiplier 10 charges 10 f + d per day, and the totals are the sums
of those sequences. -/
theorem failure_cost_multiplier_scaling (flag : Bool) (pr : SimulationParameters)
    (g : Nat → Draw) (d : Nat) (days : Nat) (s1 s10 : SimState) (fds : List (Rat × Rat))
    (h1 : runFD (init flag pr 1 g d) days = some (s1, fds))
    (h10 : runStateN (init flag pr 10 g d) days = some s10) :
    runStateN (init flag pr 1 g d) days = some s1 ∧
    s10.metrics = s1.metrics ∧ s10.tasks = s1.tasks ∧ s10.idx = s1.idx ∧
    s1.daily_costs = fds.map (fun p => p.1 + p.2) ∧
    s10.daily_costs = fds.map (fun p => 10 * p.1 + p.2) ∧
    s1.total_cost = (fds.map (fun p => p.1 + p.2)).sum ∧
    s10.total_cost = (fds.map (fun p => 10 * p.1 + p.2)).sum := by
  have hinit10 : init flag pr 10 g d = withCost (init flag pr 1 g d) 10 0 [] := rfl
  have hinit1 : init flag pr 1 g d = withCost (init flag pr 1 g d) 1 0 [] := rfl
  have hmu : (init flag pr 1 g d).failure_cost_multiplier = 1 := rfl
  have hrun1 : runStateN (init flag pr 1 g d) days = some s1 := by
    rw [runFD_fst days (init flag pr 1 g d), h1]
    rfl
  have hscale10 := runStateN_withCost days (init flag pr 1 g d) hmu 10 0 []
  rw [← hinit10, h1, h10] at hscale10
  simp only [Option.map_some'] at hscale10
  have hs10 := Option.some.inj hscale10
  have hscale1 := runStateN_withCost days (init flag pr 1 g d) hmu 1 0 []
  rw [← hinit1, h1, hrun1] at hscale1
  simp only [Option.map_some'] at hscale1
  have hs1 := Option.some.inj hscale1
  have hmap1 : fds.map (fun p => 1 * p.1 + p.2) = fds.map (fun p => p.1 + p.2) := by
    refine List.map_congr_left ?_
    intro p _
    rw [one_mul]
  refine ⟨hrun1, ?_, ?_, ?_, ?_, ?_, ?_, ?_⟩
  · rw [hs10]
    rfl
  · rw [hs10]
    rfl
  · rw [hs10]
    rfl
  · conv => lhs; rw [hs1]
    rw [withCost_daily, ← hmap1]
    rfl
  · rw [hs10, withCost_daily]
    rfl
  · conv => lhs; rw [hs1]
    rw [withCost_total, ← hmap1]
    simp
  · rw [hs10, withCost_total]
    simp

/-- Witness for C2 at zero executed day-steps. -/
theorem failure_cost_multiplier_scaling_witness :
    runStateN (init false SIMULATION_DEFAULTS 1 gHalf 0) 0 =
      some (init false SIMULATION_DEFAULTS 1 gHalf 0) ∧
    (init false SIMULATION_DEFAULTS 10 gHalf 0).metrics =
      (init false SIMULATION_DEFAULTS 1 gHalf 0).metrics ∧
    (init false SIMULATION_DEFAULTS 10 gHalf 0).tasks =
      (init false SIMULATION_DEFAULTS 1 gHalf 0).tasks ∧
    (init false SIMULATION_DEFAULTS 10 gHalf 0).idx =
      (init false SIMULATION_DEFAULTS 1 gHalf 0).idx ∧
    (init false SIMULATION_DEFAULTS 1 gHalf 0).daily_costs =
      ([] : List (Rat × Rat)).map (fun p => p.1 + p.2) ∧
    (init false SIMULATION_DEFAULTS 10 gHalf 0).daily_costs =
      ([] : List (Rat × Rat)).map (fun p => 10 * p.1 + p.2) ∧
    (init false SIMULATION_DEFAULTS 1 gHalf 0).total_cost =
      (([] : List (Rat × Rat)).map (fun p => p.1 + p.2)).sum ∧
    (init false SIMULATION_DEFAULTS 10 gHalf 0).total_cost =
      (([] : List (Rat × Rat)).map (fun p => 10 * p.1 + p.2)).sum :=
  failure_cost_multiplier_scaling false SIMULATION_DEFAULTS gHalf 0 0
    (init false SIMULATION_DEFAULTS 1 gHalf 0)
    (init false SIMULATION_DEFAULTS 10 gHalf 0) [] rfl rfl

/-- Witness for C9 at zero executed day-steps. -/
theorem ledger_invariant_witness :
    (init false SIMULATION_DEFAULTS 1 gHalf 0).total_cost =
      (init false SIMULATION_DEFAULTS 1 gHalf 0).daily_costs.sum ∧
    (init false SIMULATION_DEFAULTS 1 gHalf 0).daily_costs.length = 0 :=
  ledger_invariant 0 false SIMULATION_DEFAULTS 1 gHalf 0
    (init false SIMULATION_DEFAULTS 1 gHalf 0) rfl

end Sim
